import Mathlib

/-!
Shallow embedding of the movie-catalog service
(`src/schemas/movies.py`, `src/routes/movies.py`).

Conventions of the embedding:
* Python `datetime.date` values are modelled as `Int` day numbers; the
  clock value `datetime.date.today()` is an explicit `today : Int`
  parameter, and `timedelta(days=365)` is `+ 365`.
* Python `float` fields (`score`, `budget`, `revenue`) are modelled as `Rat`.
* Fallible handlers return `Except HTTPError _`; raising `HTTPException`
  is returning `.error`.  A handler only reaches the database `commit`
  on its success path, so an erroring handler leaves the store untouched:
  the `.error` branches carry no state, which models the request-scoped
  rollback of the session.
* The SQLAlchemy session is modelled as an explicit `DB` value threaded
  through each handler; `db.add` + `flush`/`commit` become functional row
  appends; a SELECT by key becomes `List.find?`.
* Mutable movie columns are `Option`-typed: the PATCH handler can write
  Python `None` into any of them (`setattr(movie, field, value)` with
  `value = None`), so the row type must be able to hold nulls.  The
  create handler always writes non-null values.
-/

/-- Python `str.isalpha` restricted to the basic-latin letters that the
rest of the embedding manipulates: non-empty and every character
alphabetic. -/
def pyIsAlpha (s : String) : Bool :=
  !s.data.isEmpty && s.data.all Char.isAlpha

/-- Python `str.upper` (basic-latin): uppercase every character. -/
def pyUpper (s : String) : String :=
  String.mk (s.data.map Char.toUpper)

/-- The `ALLOWED_STATUSES` set of `schemas/movies.py` (membership is all
that is ever asked of it, so a list models the Python set). -/
def ALLOWED_STATUSES : List String :=
  ["Released", "Post Production", "In Production"]

/-- Modelled from the spec: `MovieStatusEnum` lives in
`database/models.py`, which is not part of the staged sources; the spec
fixes the status enumeration to exactly the three literals Released /
Post Production / In Production. -/
inductive MovieStatusEnum where
  | released
  | post_production
  | in_production
deriving DecidableEq

/-- Modelled from the spec: the serialized value of each status member,
as returned inside detail payloads. -/
def MovieStatusEnum.toStr : MovieStatusEnum → String
  | .released => "Released"
  | .post_production => "Post Production"
  | .in_production => "In Production"

/-- Modelled from the spec: the `MovieStatusEnum(value)` constructor
call; a `ValueError` on an unknown literal is `none`. -/
def MovieStatusEnum.ofString? (value : String) : Option MovieStatusEnum :=
  if value = "Released" then some .released
  else if value = "Post Production" then some .post_production
  else if value = "In Production" then some .in_production
  else none

/-- An `HTTPException`: status code and detail message. -/
structure HTTPError where
  status_code : Nat
  detail : String
deriving DecidableEq

/-- The `HTTPException(status_code=400, detail="Invalid input data.")`
raised by every structural-validation failure. -/
def invalidInput : HTTPError :=
  { status_code := 400, detail := "Invalid input data." }

instance {ε α : Type} [DecidableEq ε] [DecidableEq α] : DecidableEq (Except ε α) := fun x y =>
  match x, y with
  | .ok a, .ok b =>
    if h : a = b then isTrue (by rw [h]) else isFalse (by intro hc; cases hc; exact h rfl)
  | .error a, .error b =>
    if h : a = b then isTrue (by rw [h]) else isFalse (by intro hc; cases hc; exact h rfl)
  | .ok _, .error _ => isFalse (by intro hc; cases hc)
  | .error _, .ok _ => isFalse (by intro hc; cases hc)

/-- The raw create payload, before pydantic validators run. -/
structure MovieCreateInput where
  name : String
  date : Int
  score : Rat
  overview : String
  status : String
  budget : Rat
  revenue : Rat
  country : String
  genres : List String
  actors : List String
  languages : List String
deriving DecidableEq

/-- A `MovieCreateSchema` instance as the route handler receives it:
the same fields, after the field validators have accepted the payload
(in particular `country` has been uppercased). -/
structure MovieCreateSchema where
  name : String
  date : Int
  score : Rat
  overview : String
  status : String
  budget : Rat
  revenue : Rat
  country : String
  genres : List String
  actors : List String
  languages : List String
deriving DecidableEq

/-- The `validate_status` field validator of `MovieCreateSchema`:
reject a status outside `ALLOWED_STATUSES`. -/
def MovieCreateSchema.validate_status (value : String) : Option String :=
  if value ∈ ALLOWED_STATUSES then some value else none

/-- The `validate_country` field validator of `MovieCreateSchema`:
exactly 3 alphabetic characters, returned uppercased. -/
def MovieCreateSchema.validate_country (value : String) : Option String :=
  if value.length ≠ 3 ∨ pyIsAlpha value = false then none
  else some (pyUpper value)

/-- Pydantic construction of `MovieCreateSchema` from a raw payload:
the `max_length=255` constraint on `name` plus the two field
validators; `none` is a request-validation failure. -/
def mkMovieCreateSchema (raw : MovieCreateInput) : Option MovieCreateSchema :=
  if raw.name.length > 255 then none
  else
    (MovieCreateSchema.validate_status raw.status).bind fun st =>
    (MovieCreateSchema.validate_country raw.country).map fun c =>
      { name := raw.name, date := raw.date, score := raw.score,
        overview := raw.overview, status := st, budget := raw.budget,
        revenue := raw.revenue, country := c, genres := raw.genres,
        actors := raw.actors, languages := raw.languages }

/-- One field of `MovieUpdateSchema` after `.dict(exclude_unset=True)`:
absent from the request, explicitly `null`, or a value. -/
inductive Patch (α : Type) where
  | unset : Patch α
  | null : Patch α
  | val : α → Patch α
deriving DecidableEq

/-- A `MovieUpdateSchema` instance, keeping the set/unset distinction
that `exclude_unset=True` reads back.  The pydantic `status` validator
also rejects non-null disallowed statuses at the boundary, but the
handler re-checks status itself, so the handler is modelled as total on
this type. -/
structure MovieUpdateSchema where
  name : Patch String := .unset
  date : Patch Int := .unset
  score : Patch Rat := .unset
  overview : Patch String := .unset
  status : Patch String := .unset
  budget : Patch Rat := .unset
  revenue : Patch Rat := .unset
deriving DecidableEq

/-- Condition of `_validate_movie_fields_for_update` on `score`:
present, non-null and out of `[0, 100]`. -/
def scoreViolates (p : Patch Rat) : Bool :=
  match p with
  | .val s => decide (s < 0) || decide (s > 100)
  | _ => false

/-- Condition of `_validate_movie_fields_for_update` on `budget` and on
`revenue`: present, non-null and negative. -/
def nonnegViolates (p : Patch Rat) : Bool :=
  match p with
  | .val v => decide (v < 0)
  | _ => false

/-- Condition of `_validate_movie_fields_for_update` on `date`:
present, non-null and past `today + 365` days. -/
def dateViolates (today : Int) (p : Patch Int) : Bool :=
  match p with
  | .val d => decide (d > today + 365)
  | _ => false

/-- Condition of `_validate_movie_fields_for_update` on `status`:
present, non-null and outside `ALLOWED_STATUSES`. -/
def statusViolates (p : Patch String) : Bool :=
  match p with
  | .val s => decide (s ∉ ALLOWED_STATUSES)
  | _ => false

/-- The body of `_validate_movie_fields_for_update`, field checks in
source order; `some invalidInput` is the raised `HTTPException`. -/
def validate_movie_fields_for_update (today : Int) (data : MovieUpdateSchema) :
    Option HTTPError :=
  if scoreViolates data.score then some invalidInput
  else if nonnegViolates data.budget then some invalidInput
  else if nonnegViolates data.revenue then some invalidInput
  else if dateViolates today data.date then some invalidInput
  else if statusViolates data.status then some invalidInput
  else none

/-- The body of `_validate_movie_fields_for_create`, checks in source
order. -/
def validate_movie_fields_for_create (today : Int) (payload : MovieCreateSchema) :
    Option HTTPError :=
  if payload.date > today + 365 then some invalidInput
  else if payload.score < 0 ∨ payload.score > 100 then some invalidInput
  else if payload.budget < 0 ∨ payload.revenue < 0 then some invalidInput
  else if payload.status ∉ ALLOWED_STATUSES then some invalidInput
  else if payload.country.length ≠ 3 ∨ pyIsAlpha payload.country = false then some invalidInput
  else none

/-- A `CountryModel` row. -/
structure CountryModel where
  id : Nat
  code : String
  name : Option String := none
deriving DecidableEq

/-- A `GenreModel` row. -/
structure GenreModel where
  id : Nat
  name : String
deriving DecidableEq

/-- An `ActorModel` row. -/
structure ActorModel where
  id : Nat
  name : String
deriving DecidableEq

/-- A `LanguageModel` row. -/
structure LanguageModel where
  id : Nat
  name : String
deriving DecidableEq

/-- A `MovieModel` row.  Relations are held by row id (the association
tables); mutable scalar columns are `Option`-typed because the PATCH
handler can write `None` into them. -/
structure MovieModel where
  id : Nat
  name : Option String := none
  date : Option Int := none
  score : Option Rat := none
  overview : Option String := none
  status : Option MovieStatusEnum := none
  budget : Option Rat := none
  revenue : Option Rat := none
  countryId : Nat := 0
  genreIds : List Nat := []
  actorIds : List Nat := []
  languageIds : List Nat := []
deriving DecidableEq

/-- The relational store: one row list per table, plus the
auto-increment counter of each primary key. -/
structure DB where
  movies : List MovieModel := []
  countries : List CountryModel := []
  genres : List GenreModel := []
  actors : List ActorModel := []
  languages : List LanguageModel := []
  nextMovieId : Nat := 1
  nextCountryId : Nat := 1
  nextGenreId : Nat := 1
  nextActorId : Nat := 1
  nextLanguageId : Nat := 1
deriving DecidableEq

/-- Primary-key discipline the storage engine guarantees and the
embedding assumes where a row must be recovered by id: every stored id
is below its table's auto-increment counter, and ids are unique per
table. -/
def DB.WF (db : DB) : Prop :=
  (∀ m ∈ db.movies, m.id < db.nextMovieId) ∧
  (db.movies.map MovieModel.id).Nodup ∧
  (∀ c ∈ db.countries, c.id < db.nextCountryId) ∧
  (db.countries.map CountryModel.id).Nodup ∧
  (∀ g ∈ db.genres, g.id < db.nextGenreId) ∧
  (db.genres.map GenreModel.id).Nodup ∧
  (∀ a ∈ db.actors, a.id < db.nextActorId) ∧
  (db.actors.map ActorModel.id).Nodup ∧
  (∀ l ∈ db.languages, l.id < db.nextLanguageId) ∧
  (db.languages.map LanguageModel.id).Nodup

instance (db : DB) : Decidable db.WF := by
  unfold DB.WF; infer_instance

/-- The `_page_url` helper: strip a leading `/api/v1` from the request
path (`path.startswith` and the 7-character slice are taken on the
character sequence) and re-encode `page` and `per_page` as a relative
URL. -/
def page_url (path : String) (page per_page : Nat) : String :=
  let p := if "/api/v1".data.isPrefixOf path.data
    then String.mk (path.data.drop 7) else path
  p ++ "?page=" ++ toString page ++ "&per_page=" ++ toString per_page

/-- Insertion step of the id-descending sort: place `m` before the
first row whose id does not exceed it. -/
def insertByIdDesc (m : MovieModel) : List MovieModel → List MovieModel
  | [] => [m]
  | x :: xs => if x.id ≤ m.id then m :: x :: xs else x :: insertByIdDesc m xs

/-- Sort rows by descending id (insertion sort, so that concrete
instances evaluate inside the kernel). -/
def sortByIdDesc : List MovieModel → List MovieModel
  | [] => []
  | x :: xs => insertByIdDesc x (sortByIdDesc xs)

/-- The rows of `select(MovieModel).order_by(MovieModel.id.desc())`. -/
def moviesByIdDesc (db : DB) : List MovieModel :=
  sortByIdDesc db.movies

/-- The body of the `MovieListResponseSchema` payload.  The per-item
projection to `MovieListItemSchema` keeps only scalar columns and is
not needed by any property, so the selected rows are kept as rows. -/
structure MovieListResponse where
  movies : List MovieModel
  prev_page : Option String
  next_page : Option String
  total_pages : Nat
  total_items : Nat
deriving DecidableEq

/-- The `GET /movies/` handler (`get_movies`): count, offset/limit
page, 404 on an empty page, `ceil` page count and the two conditional
links.  `path` is `request.url.path`. -/
def get_movies (path : String) (page per_page : Nat) (db : DB) :
    Except HTTPError MovieListResponse :=
  let total_items := db.movies.length
  let offset := (page - 1) * per_page
  let movies := ((moviesByIdDesc db).drop offset).take per_page
  if movies.isEmpty then .error { status_code := 404, detail := "No movies found." }
  else
    let total_pages := if total_items = 0 then 0 else (total_items + per_page - 1) / per_page
    let prev_page := if page > 1 then some (page_url path (page - 1) per_page) else none
    let next_page := if page < total_pages then some (page_url path (page + 1) per_page) else none
    .ok { movies := movies, prev_page := prev_page, next_page := next_page,
          total_pages := total_pages, total_items := total_items }

/-- Country resolution inside `create_movie`: SELECT by code, else
INSERT a new row (id from the auto-increment counter, `name` NULL). -/
def getOrCreateCountry (code : String) (db : DB) : CountryModel × DB :=
  match db.countries.find? (fun c => c.code == code) with
  | some c => (c, db)
  | none =>
    let c : CountryModel := { id := db.nextCountryId, code := code }
    (c, { db with countries := db.countries ++ [c],
                  nextCountryId := db.nextCountryId + 1 })

/-- Genre resolution for one name inside `create_movie`: SELECT by
name, else INSERT. -/
def getOrCreateGenre (name : String) (db : DB) : GenreModel × DB :=
  match db.genres.find? (fun g => g.name == name) with
  | some g => (g, db)
  | none =>
    let g : GenreModel := { id := db.nextGenreId, name := name }
    (g, { db with genres := db.genres ++ [g],
                  nextGenreId := db.nextGenreId + 1 })

/-- Actor resolution for one name inside `create_movie`. -/
def getOrCreateActor (name : String) (db : DB) : ActorModel × DB :=
  match db.actors.find? (fun a => a.name == name) with
  | some a => (a, db)
  | none =>
    let a : ActorModel := { id := db.nextActorId, name := name }
    (a, { db with actors := db.actors ++ [a],
                  nextActorId := db.nextActorId + 1 })

/-- Language resolution for one name inside `create_movie`. -/
def getOrCreateLanguage (name : String) (db : DB) : LanguageModel × DB :=
  match db.languages.find? (fun l => l.name == name) with
  | some l => (l, db)
  | none =>
    let l : LanguageModel := { id := db.nextLanguageId, name := name }
    (l, { db with languages := db.languages ++ [l],
                  nextLanguageId := db.nextLanguageId + 1 })

/-- The `for name in movie.genres` loop of `create_movie`, collecting
the resolved row ids in payload order. -/
def getOrCreateGenres : List String → DB → List Nat × DB
  | [], db => ([], db)
  | name :: rest, db =>
    let gdb := getOrCreateGenre name db
    let r := getOrCreateGenres rest gdb.2
    (gdb.1.id :: r.1, r.2)

/-- The `for name in movie.actors` loop of `create_movie`. -/
def getOrCreateActors : List String → DB → List Nat × DB
  | [], db => ([], db)
  | name :: rest, db =>
    let adb := getOrCreateActor name db
    let r := getOrCreateActors rest adb.2
    (adb.1.id :: r.1, r.2)

/-- The `for name in movie.languages` loop of `create_movie`. -/
def getOrCreateLanguages : List String → DB → List Nat × DB
  | [], db => ([], db)
  | name :: rest, db =>
    let ldb := getOrCreateLanguage name db
    let r := getOrCreateLanguages rest ldb.2
    (ldb.1.id :: r.1, r.2)

/-- The detail payload (`MovieDetailSchema`): scalar columns plus the
resolved country row and relation rows. -/
structure MovieDetail where
  id : Nat
  name : String
  date : Int
  score : Rat
  overview : String
  status : String
  budget : Rat
  revenue : Rat
  country : CountryModel
  genres : List GenreModel
  actors : List ActorModel
  languages : List LanguageModel
deriving DecidableEq

/-- The re-SELECT with `joinedload` that ends `create_movie` (also the
body of `get_movie`), serialized through `MovieDetailSchema`: the row
by id, each scalar column non-null, the country row by id and every
related row by id.  The enum column serializes to its string value. -/
def detailOf? (db : DB) (movie_id : Nat) : Option MovieDetail :=
  (db.movies.find? (fun m => m.id == movie_id)).bind fun m =>
  m.name.bind fun name =>
  m.date.bind fun date =>
  m.score.bind fun score =>
  m.overview.bind fun overview =>
  m.status.bind fun st =>
  m.budget.bind fun budget =>
  m.revenue.bind fun revenue =>
  (db.countries.find? (fun c => c.id == m.countryId)).bind fun country =>
  (m.genreIds.mapM (fun i => db.genres.find? (fun g => g.id == i))).bind fun genres =>
  (m.actorIds.mapM (fun i => db.actors.find? (fun a => a.id == i))).bind fun actors =>
  (m.languageIds.mapM (fun i => db.languages.find? (fun l => l.id == i))).bind fun languages =>
  some { id := m.id, name := name, date := date, score := score,
         overview := overview, status := st.toStr, budget := budget,
         revenue := revenue, country := country, genres := genres,
         actors := actors, languages := languages }

/-- The 409 message of `create_movie`, naming the offending pair. -/
def conflict_detail (name : String) (date : Int) : String :=
  "A movie with the name '" ++ name ++ "' and release date '" ++
    toString date ++ "' already exists."

/-- The `POST /movies/` handler (`create_movie`): field validation,
duplicate (name, date) check, get-or-create of country / genres /
actors / languages, status-enum conversion, INSERT of the movie row and
re-SELECT of the detail payload.  Every `.error` happens before the
commit, so it leaves the store as it was. -/
def create_movie (today : Int) (movie : MovieCreateSchema) (db : DB) :
    Except HTTPError (Option MovieDetail × DB) :=
  match validate_movie_fields_for_create today movie with
  | some e => .error e
  | none =>
    match db.movies.find? (fun m => m.name == some movie.name && m.date == some movie.date) with
    | some _ => .error { status_code := 409, detail := conflict_detail movie.name movie.date }
    | none =>
      let cdb := getOrCreateCountry movie.country db
      let gdb := getOrCreateGenres movie.genres cdb.2
      let adb := getOrCreateActors movie.actors gdb.2
      let ldb := getOrCreateLanguages movie.languages adb.2
      match MovieStatusEnum.ofString? movie.status with
      | none => .error invalidInput
      | some status_enum =>
        let db4 := ldb.2
        let new_movie : MovieModel :=
          { id := db4.nextMovieId, name := some movie.name, date := some movie.date,
            score := some movie.score, overview := some movie.overview,
            status := some status_enum, budget := some movie.budget,
            revenue := some movie.revenue, countryId := cdb.1.id,
            genreIds := gdb.1, actorIds := adb.1, languageIds := ldb.1 }
        let db5 := { db4 with movies := db4.movies ++ [new_movie],
                              nextMovieId := db4.nextMovieId + 1 }
        .ok (detailOf? db5 new_movie.id, db5)

/-- The full POST pipeline: pydantic parse, then the handler.  A parse
failure is a request-validation rejection. -/
def post_movie_route (today : Int) (raw : MovieCreateInput) (db : DB) :
    Except HTTPError (Option MovieDetail × DB) :=
  match mkMovieCreateSchema raw with
  | none => .error invalidInput
  | some sch => create_movie today sch db

/-- One field application of the `setattr` loop in `update_movie`. -/
def applyPatch {α : Type} (p : Patch α) (cur : Option α) : Option α :=
  match p with
  | .unset => cur
  | .null => none
  | .val v => some v

/-- The `PATCH /movies/{id}/` handler (`update_movie`): row lookup,
`_validate_movie_fields_for_update` on the present fields, the
`setattr` loop (with the status-string-to-enum conversion) and the
commit.  An `.error` leaves the store untouched, which models the
absence of a commit. -/
def update_movie (today : Int) (movie_id : Nat) (movie_data : MovieUpdateSchema)
    (db : DB) : Except HTTPError (String × DB) :=
  match db.movies.find? (fun m => m.id == movie_id) with
  | none => .error { status_code := 404, detail := "Movie with the given ID was not found." }
  | some movie =>
    match validate_movie_fields_for_update today movie_data with
    | some e => .error e
    | none =>
      let stResult : Except HTTPError (Option MovieStatusEnum) :=
        match movie_data.status with
        | .unset => .ok movie.status
        | .null => .ok none
        | .val v =>
          match MovieStatusEnum.ofString? v with
          | some e => .ok (some e)
          | none => .error invalidInput
      match stResult with
      | .error e => .error e
      | .ok st =>
        let movie2 : MovieModel :=
          { movie with
            name := applyPatch movie_data.name movie.name,
            date := applyPatch movie_data.date movie.date,
            score := applyPatch movie_data.score movie.score,
            overview := applyPatch movie_data.overview movie.overview,
            status := st,
            budget := applyPatch movie_data.budget movie.budget,
            revenue := applyPatch movie_data.revenue movie.revenue }
        let db2 := { db with movies := db.movies.map (fun m => if m.id == movie_id then movie2 else m) }
        .ok ("Movie updated successfully.", db2)

/-- The `DELETE /movies/{id}/` handler (`delete_movie`). -/
def delete_movie (movie_id : Nat) (db : DB) : Except HTTPError DB :=
  match db.movies.find? (fun m => m.id == movie_id) with
  | none => .error { status_code := 404, detail := "Movie with the given ID was not found." }
  | some _ => .ok { db with movies := db.movies.filter (fun m => m.id != movie_id) }

/-- A sequence of sequential create requests: each failing request
leaves the store unchanged, each succeeding one commits. -/
def createMany (today : Int) : List MovieCreateSchema → DB → DB
  | [], db => db
  | p :: ps, db =>
    match create_movie today p db with
    | .ok r => createMany today ps r.2
    | .error _ => createMany today ps db

/-- The spec's scalar bounds on a stored movie: a score in `[0, 100]`,
a non-negative budget and revenue, and a release date at most
`today + 365` — each field present (non-null) with a value in range. -/
def movieBoundsOK (today : Int) (m : MovieModel) : Bool :=
  (match m.score with
   | some s => decide (0 ≤ s) && decide (s ≤ 100)
   | none => false) &&
  (match m.budget with
   | some b => decide (0 ≤ b)
   | none => false) &&
  (match m.revenue with
   | some v => decide (0 ≤ v)
   | none => false) &&
  (match m.date with
   | some d => decide (d ≤ today + 365)
   | none => false)

/-- The spec's identity invariant: no two stored movies share both name
and release date. -/
def moviePairUnique (db : DB) : Prop :=
  db.movies.Pairwise (fun a b => ¬ (a.name = b.name ∧ a.date = b.date))

instance (db : DB) : Decidable (moviePairUnique db) := by
  unfold moviePairUnique; infer_instance

/-- At most one reference row per natural key: country codes and
genre / actor / language names are each unique in their table. -/
def refRowsUnique (db : DB) : Prop :=
  (db.countries.map CountryModel.code).Nodup ∧
  (db.genres.map GenreModel.name).Nodup ∧
  (db.actors.map ActorModel.name).Nodup ∧
  (db.languages.map LanguageModel.name).Nodup

instance (db : DB) : Decidable (refRowsUnique db) := by
  unfold refRowsUnique; infer_instance

/-- Update payload that explicitly nulls all five validated fields. -/
def updAllNull : MovieUpdateSchema :=
  { score := .null, budget := .null, revenue := .null, date := .null, status := .null }

/-- Concrete store with one fully populated movie row, used by
witnesses and counterexamples. -/
def dbOne : DB :=
  { movies := [{ id := 1, name := some "A", date := some 10, score := some 50,
                 overview := some "o", status := some .released,
                 budget := some 100, revenue := some 200, countryId := 1 }],
    countries := [{ id := 1, code := "USA" }],
    nextMovieId := 2, nextCountryId := 2 }

/-- Concrete store with two movies whose (name, date) pairs differ,
used by the update-duplication counterexample. -/
def dbTwo : DB :=
  { movies := [{ id := 1, name := some "A", date := some 10, score := some 50,
                 overview := some "o", status := some .released,
                 budget := some 100, revenue := some 200, countryId := 1 },
               { id := 2, name := some "B", date := some 20, score := some 60,
                 overview := some "p", status := some .released,
                 budget := some 300, revenue := some 400, countryId := 1 }],
    countries := [{ id := 1, code := "USA" }],
    nextMovieId := 3, nextCountryId := 2 }

/-- Store `dbOne` after the movie's score is set to null. -/
def dbOneNullScore : DB :=
  { movies := [{ id := 1, name := some "A", date := some 10, score := none,
                 overview := some "o", status := some .released,
                 budget := some 100, revenue := some 200, countryId := 1 }],
    countries := [{ id := 1, code := "USA" }],
    nextMovieId := 2, nextCountryId := 2 }

/-- Store `dbOne` after the movie's score is set to 60. -/
def dbOneScore60 : DB :=
  { movies := [{ id := 1, name := some "A", date := some 10, score := some 60,
                 overview := some "o", status := some .released,
                 budget := some 100, revenue := some 200, countryId := 1 }],
    countries := [{ id := 1, code := "USA" }],
    nextMovieId := 2, nextCountryId := 2 }

/-- Store `dbTwo` after movie 2 is renamed/redated onto movie 1's
(name, date) pair. -/
def dbTwoDup : DB :=
  { movies := [{ id := 1, name := some "A", date := some 10, score := some 50,
                 overview := some "o", status := some .released,
                 budget := some 100, revenue := some 200, countryId := 1 },
               { id := 2, name := some "A", date := some 10, score := some 60,
                 overview := some "p", status := some .released,
                 budget := some 300, revenue := some 400, countryId := 1 }],
    countries := [{ id := 1, code := "USA" }],
    nextMovieId := 3, nextCountryId := 2 }

/-- A valid create payload (as the handler receives it) whose
(name, date) pair is fresh over `dbOne`. -/
def schB : MovieCreateSchema :=
  { name := "B", date := 20, score := 50, overview := "o", status := "Released",
    budget := 0, revenue := 0, country := "USA",
    genres := ["Action"], actors := ["Bob"], languages := ["English"] }

/-- Create payload that duplicates `dbOne`'s (name, date) pair and
also carries an invalid score. -/
def schDupBad : MovieCreateSchema :=
  { name := "A", date := 10, score := -1, overview := "o", status := "Released",
    budget := 0, revenue := 0, country := "USA",
    genres := [], actors := [], languages := [] }

/-- Create payload that duplicates `dbOne`'s (name, date) pair with all
fields valid. -/
def schDupOk : MovieCreateSchema :=
  { name := "A", date := 10, score := 50, overview := "o", status := "Released",
    budget := 0, revenue := 0, country := "USA",
    genres := [], actors := [], languages := [] }

/-- A raw create payload with a lowercase country code. -/
def rawA : MovieCreateInput :=
  { name := "A", date := 10, score := 50, overview := "o", status := "Released",
    budget := 1, revenue := 2, country := "usa",
    genres := ["Action"], actors := ["Bob"], languages := ["English"] }

/-- The schema instance that pydantic builds from `rawA` (country
uppercased). -/
def schA : MovieCreateSchema :=
  { name := "A", date := 10, score := 50, overview := "o", status := "Released",
    budget := 1, revenue := 2, country := "USA",
    genres := ["Action"], actors := ["Bob"], languages := ["English"] }

/-- Concrete store with five bare movie rows (ids 1 to 5), used by
witnesses. -/
def dbList5 : DB :=
  { movies := [{ id := 1 }, { id := 2 }, { id := 3 }, { id := 4 }, { id := 5 }],
    nextMovieId := 6 }

/-- The list response of page 2 with `per_page = 2` over `dbList5`. -/
def respList5 : MovieListResponse :=
  { movies := [{ id := 3 }, { id := 2 }],
    prev_page := some "/movies/?page=1&per_page=2",
    next_page := some "/movies/?page=3&per_page=2",
    total_pages := 3, total_items := 5 }

/-- Inserting one row grows the sorted list by one. -/
lemma length_insertByIdDesc (m : MovieModel) (l : List MovieModel) :
    (insertByIdDesc m l).length = l.length + 1 := by
  induction l with
  | nil => rfl
  | cons x xs ih =>
    simp only [insertByIdDesc]
    split <;> simp [ih]

/-- Sorting preserves the row count. -/
lemma length_sortByIdDesc (l : List MovieModel) :
    (sortByIdDesc l).length = l.length := by
  induction l with
  | nil => rfl
  | cons x xs ih => simp [sortByIdDesc, length_insertByIdDesc, ih]

/-- Emptiness of the selected page, in terms of the page parameters:
with `per_page ≥ 1` the offset/limit slice is empty exactly when the
offset reaches the row count. -/
lemma selected_page_isEmpty_iff (page per_page : Nat) (db : DB) (hpp : 1 ≤ per_page) :
    (((moviesByIdDesc db).drop ((page - 1) * per_page)).take per_page).isEmpty = true ↔
      db.movies.length ≤ (page - 1) * per_page := by
  rw [List.isEmpty_eq_true, List.take_eq_nil_iff, List.drop_eq_nil_iff]
  simp only [moviesByIdDesc, length_sortByIdDesc]
  set k := (page - 1) * per_page
  omega

/-- Nat version of the ceiling of a division: `(a + b - 1) / b` is
`⌈a / b⌉`. -/
lemma ceil_div_nat (a b : Nat) (hb : 1 ≤ b) :
    (((a + b - 1) / b : Nat) : ℤ) = Int.ceil ((a : ℚ) / (b : ℚ)) := by
  have hdm : b * ((a + b - 1) / b) + (a + b - 1) % b = a + b - 1 := Nat.div_add_mod _ _
  have hml : (a + b - 1) % b < b := Nat.mod_lt _ hb
  set q := (a + b - 1) / b with hq
  set r := (a + b - 1) % b with hr
  obtain ⟨t, ht⟩ : ∃ t, b * q = t := ⟨_, rfl⟩
  rw [ht] at hdm
  have h1 : a ≤ t := by omega
  have h2 : t < a + b := by omega
  have hbq : (0 : ℚ) < (b : ℚ) := by exact_mod_cast hb
  symm
  rw [Int.ceil_eq_iff]
  constructor
  · rw [lt_div_iff₀ hbq]
    have hz : (q : ℤ) * b < a + b := by
      have hbt : (b : ℤ) * q = t := by exact_mod_cast ht
      have h2z : (t : ℤ) < a + b := by exact_mod_cast h2
      nlinarith
    have : ((q : ℤ) - 1) * b < a := by nlinarith
    push_cast
    exact_mod_cast this
  · rw [div_le_iff₀ hbq]
    have : (a : ℤ) ≤ q * b := by
      have hbt : (b : ℤ) * q = t := by exact_mod_cast ht
      have h1z : (a : ℤ) ≤ t := by exact_mod_cast h1
      nlinarith
    exact_mod_cast this

/-- C7: a list call fails with NotFound (404, "No movies found.")
exactly when the selected page is empty — with `per_page ≥ 1`, exactly
when the offset `(page - 1) * per_page` reaches the row count (which
covers the empty catalog and any page past `total_pages`); and it
succeeds exactly otherwise. -/
theorem get_movies_notfound_iff_page_empty (path : String) (page per_page : Nat)
    (db : DB) (hpp : 1 ≤ per_page) :
    (get_movies path page per_page db =
        .error { status_code := 404, detail := "No movies found." } ↔
      db.movies.length ≤ (page - 1) * per_page) ∧
    ((∃ r, get_movies path page per_page db = .ok r) ↔
      (page - 1) * per_page < db.movies.length) := by
  have hkey := selected_page_isEmpty_iff page per_page db hpp
  simp only [get_movies]
  split
  next hemp =>
    have := hkey.mp hemp
    constructor
    · simp [this]
    · constructor
      · rintro ⟨r, hr⟩; cases hr
      · intro h; omega
  next hemp =>
    rw [Bool.not_eq_true] at hemp
    have hne : ¬ db.movies.length ≤ (page - 1) * per_page := fun hc => by
      rw [hkey.mpr hc] at hemp; cases hemp
    constructor
    · simp [hne]
    · constructor
      · intro _; omega
      · intro _; exact ⟨_, rfl⟩

/-- C7 witness: on the empty store, page 1 with `per_page = 10` fails
with 404 and has no success result. -/
theorem get_movies_notfound_iff_page_empty_witness :
    (get_movies "/movies/" 1 10 {} =
        .error { status_code := 404, detail := "No movies found." } ↔
      (DB.movies {}).length ≤ (1 - 1) * 10) ∧
    ((∃ r, get_movies "/movies/" 1 10 {} = .ok r) ↔
      (1 - 1) * 10 < (DB.movies {}).length) :=
  get_movies_notfound_iff_page_empty "/movies/" 1 10 {} (by decide)

/-- C6: on any successful list call with `page ≥ 1` and
`per_page ∈ [1, 20]`, the returned page is the slice with skip
`(page - 1) * per_page` and limit `per_page` of the id-descending
order, `total_items` is the row count, `total_pages` is
`⌈total_items / per_page⌉` (success forces `total_items > 0`, so the
zero case of the source's formula cannot fire), `prev_page` re-encodes
`page - 1` with the same `per_page` exactly when `page > 1`, and
`next_page` re-encodes `page + 1` exactly when `page < total_pages`. -/
theorem get_movies_pagination_correct (path : String) (page per_page : Nat) (db : DB)
    (r : MovieListResponse) (hpage : 1 ≤ page) (hpp1 : 1 ≤ per_page) (hpp2 : per_page ≤ 20)
    (hok : get_movies path page per_page db = .ok r) :
    r.movies = ((moviesByIdDesc db).drop ((page - 1) * per_page)).take per_page ∧
    r.total_items = db.movies.length ∧
    ((r.total_pages : ℤ) = Int.ceil ((r.total_items : ℚ) / (per_page : ℚ))) ∧
    (1 < page → r.prev_page = some (page_url path (page - 1) per_page)) ∧
    (page = 1 → r.prev_page = none) ∧
    (page < r.total_pages → r.next_page = some (page_url path (page + 1) per_page)) ∧
    (r.total_pages ≤ page → r.next_page = none) := by
  have hkey := selected_page_isEmpty_iff page per_page db hpp1
  simp only [get_movies] at hok
  split at hok
  next hemp => cases hok
  next hemp =>
    rw [Bool.not_eq_true] at hemp
    have hlen : ¬ db.movies.length ≤ (page - 1) * per_page := fun hc => by
      rw [hkey.mpr hc] at hemp; cases hemp
    have h0 : ¬ db.movies.length = 0 := by
      intro h; exact hlen (by omega)
    rw [Except.ok.injEq] at hok
    subst hok
    simp only [if_neg h0]
    refine ⟨trivial, trivial, ?_, ?_, ?_, ?_, ?_⟩
    · exact ceil_div_nat db.movies.length per_page hpp1
    · intro h
      show (if page > 1 then some (page_url path (page - 1) per_page) else none) =
        some (page_url path (page - 1) per_page)
      rw [if_pos h]
    · intro h
      subst h
      show (if 1 > 1 then some (page_url path (1 - 1) per_page) else none) = none
      norm_num
    · intro h
      show (if page < (db.movies.length + per_page - 1) / per_page
          then some (page_url path (page + 1) per_page) else none) =
        some (page_url path (page + 1) per_page)
      rw [if_pos h]
    · intro h
      have hnlt : ¬ page < (db.movies.length + per_page - 1) / per_page := by omega
      show (if page < (db.movies.length + per_page - 1) / per_page
          then some (page_url path (page + 1) per_page) else none) = none
      rw [if_neg hnlt]

/-- C6 witness: page 2 with `per_page = 2` over five rows (the spec's
shape: `total_pages = 3`, `prev_page` encodes page 1, `next_page`
encodes page 3, both relative URLs with the `/api/v1` prefix
stripped). -/
theorem get_movies_pagination_correct_witness :
    respList5.movies = ((moviesByIdDesc dbList5).drop ((2 - 1) * 2)).take 2 ∧
    respList5.total_items = dbList5.movies.length ∧
    ((respList5.total_pages : ℤ) = Int.ceil ((respList5.total_items : ℚ) / ((2 : Nat) : ℚ))) ∧
    (1 < 2 → respList5.prev_page = some (page_url "/api/v1/movies/" (2 - 1) 2)) ∧
    (2 = 1 → respList5.prev_page = none) ∧
    (2 < respList5.total_pages → respList5.next_page = some (page_url "/api/v1/movies/" (2 + 1) 2)) ∧
    (respList5.total_pages ≤ 2 → respList5.next_page = none) :=
  get_movies_pagination_correct "/api/v1/movies/" 2 2 dbList5 respList5
    (by decide) (by decide) (by decide) (by decide)


/-- Update validation passes exactly when none of the five present
non-null fields violates its rule. -/
lemma validate_update_none_iff (today : Int) (data : MovieUpdateSchema) :
    validate_movie_fields_for_update today data = none ↔
      (scoreViolates data.score = false ∧ nonnegViolates data.budget = false ∧
       nonnegViolates data.revenue = false ∧ dateViolates today data.date = false ∧
       statusViolates data.status = false) := by
  unfold validate_movie_fields_for_update
  cases hA : scoreViolates data.score <;> cases hB : nonnegViolates data.budget <;>
    cases hC : nonnegViolates data.revenue <;> cases hD : dateViolates today data.date <;>
      cases hE : statusViolates data.status <;> simp

/-- Update validation either passes or yields the generic 400 error. -/
lemma validate_update_eq (today : Int) (data : MovieUpdateSchema) :
    validate_movie_fields_for_update today data = none ∨
    validate_movie_fields_for_update today data = some invalidInput := by
  unfold validate_movie_fields_for_update
  cases scoreViolates data.score <;> cases nonnegViolates data.budget <;>
    cases nonnegViolates data.revenue <;> cases dateViolates today data.date <;>
      cases statusViolates data.status <;> simp

/-- After replacing every row with a matching id, the row lookup finds
the replacement. -/
lemma find?_replace (l : List MovieModel) (mid : Nat) (m m2 : MovieModel)
    (hf : l.find? (fun x => x.id == mid) = some m) (hid : m2.id = m.id) :
    (l.map (fun x => if x.id == mid then m2 else x)).find? (fun x => x.id == mid) =
      some m2 := by
  induction l with
  | nil => cases hf
  | cons a l ih =>
    rw [List.find?_cons] at hf
    by_cases ha : (a.id == mid) = true
    · simp only [ha] at hf
      injection hf with hf
      subst hf
      have h2 : (m2.id == mid) = true := by rw [hid]; exact ha
      simp only [List.map_cons]
      rw [if_pos ha]
      rw [List.find?_cons]
      simp [h2]
    · simp only [Bool.not_eq_true] at ha
      simp only [ha, Bool.false_eq_true] at hf
      simp only [List.map_cons]
      rw [if_neg (by simp [ha])]
      rw [List.find?_cons]
      simp only [ha, Bool.false_eq_true]
      exact ih hf

/-- Characterization of a successful PATCH: the found row, rewritten
field by field through the patch, replaces the original in the store. -/
lemma update_movie_ok (today : Int) (movie_id : Nat) (data : MovieUpdateSchema)
    (db : DB) (movie : MovieModel) (st : Option MovieStatusEnum)
    (hfound : db.movies.find? (fun m => m.id == movie_id) = some movie)
    (hval : validate_movie_fields_for_update today data = none)
    (hst : (match data.status with
            | .unset => some movie.status
            | .null => some (none : Option MovieStatusEnum)
            | .val v => (MovieStatusEnum.ofString? v).map some) = some st) :
    update_movie today movie_id data db = .ok ("Movie updated successfully.",
      { db with movies := db.movies.map (fun m => if m.id == movie_id then
          { movie with
            name := applyPatch data.name movie.name,
            date := applyPatch data.date movie.date,
            score := applyPatch data.score movie.score,
            overview := applyPatch data.overview movie.overview,
            status := st,
            budget := applyPatch data.budget movie.budget,
            revenue := applyPatch data.revenue movie.revenue } else m) }) := by
  cases hp : data.status with
  | unset =>
    rw [hp] at hst
    injection hst with hst
    subst hst
    simp [update_movie, hfound, hval, hp]
  | null =>
    rw [hp] at hst
    injection hst with hst
    subst hst
    simp [update_movie, hfound, hval, hp]
  | val v =>
    rw [hp] at hst
    change Option.map some (MovieStatusEnum.ofString? v) = some st at hst
    cases ho : MovieStatusEnum.ofString? v with
    | none => rw [ho] at hst; cases hst
    | some e =>
      rw [ho] at hst
      injection hst with hst
      subst hst
      simp [update_movie, hfound, hval, hp, ho]

/-- C8: on an existing movie, an update payload with at least one
present, non-null field violating its range rule fails with
InvalidInput (400, "Invalid input data.").  The validation runs before
the `setattr` loop and the handler returns before any commit, so the
store — and the stored movie — are exactly as before the call (in this
embedding an erroring handler returns no successor store at all). -/
theorem update_invalid_field_rejected_unchanged (today : Int) (movie_id : Nat)
    (data : MovieUpdateSchema) (db : DB)
    (hfound : (db.movies.find? (fun m => m.id == movie_id)).isSome = true)
    (hbad :
      (∃ s, data.score = .val s ∧ (s < 0 ∨ s > 100)) ∨
      (∃ b, data.budget = .val b ∧ b < 0) ∨
      (∃ v, data.revenue = .val v ∧ v < 0) ∨
      (∃ d, data.date = .val d ∧ d > today + 365) ∨
      (∃ st, data.status = .val st ∧ st ∉ ALLOWED_STATUSES)) :
    update_movie today movie_id data db = .error invalidInput := by
  obtain ⟨movie, hm⟩ := Option.isSome_iff_exists.mp hfound
  have hflag : ¬ (scoreViolates data.score = false ∧ nonnegViolates data.budget = false ∧
      nonnegViolates data.revenue = false ∧ dateViolates today data.date = false ∧
      statusViolates data.status = false) := by
    rcases hbad with ⟨s, hs, hr⟩ | ⟨b, hb, hr⟩ | ⟨v, hv, hr⟩ | ⟨d, hd, hr⟩ | ⟨st, hst, hr⟩
    · rintro ⟨h1, -, -, -, -⟩
      rw [hs] at h1
      simp only [scoreViolates, Bool.or_eq_false_iff, decide_eq_false_iff_not] at h1
      exact hr.elim h1.1 h1.2
    · rintro ⟨-, h1, -, -, -⟩
      rw [hb] at h1
      simp only [nonnegViolates, decide_eq_false_iff_not] at h1
      exact h1 hr
    · rintro ⟨-, -, h1, -, -⟩
      rw [hv] at h1
      simp only [nonnegViolates, decide_eq_false_iff_not] at h1
      exact h1 hr
    · rintro ⟨-, -, -, h1, -⟩
      rw [hd] at h1
      simp only [dateViolates, decide_eq_false_iff_not] at h1
      exact h1 hr
    · rintro ⟨-, -, -, -, h1⟩
      rw [hst] at h1
      simp only [statusViolates, decide_eq_false_iff_not] at h1
      exact h1 hr
  have hv : validate_movie_fields_for_update today data = some invalidInput := by
    rcases validate_update_eq today data with h | h
    · exact absurd ((validate_update_none_iff today data).mp h) hflag
    · exact h
  simp [update_movie, hm, hv]

/-- C8 witness: `score = -1` on the stored movie of `dbOne` is rejected
with 400 and no state change. -/
theorem update_invalid_field_rejected_unchanged_witness :
    update_movie 0 1 { score := .val (-1) } dbOne = .error invalidInput :=
  update_invalid_field_rejected_unchanged 0 1 { score := .val (-1) } dbOne
    (by decide) (Or.inl ⟨-1, rfl, Or.inl (by norm_num)⟩)

/-- C9: an update payload whose validated fields are each absent or
explicitly null is accepted — `_validate_movie_fields_for_update` skips
null values — and every explicitly null field among score / budget /
revenue / date / status is written to the stored movie as null. -/
theorem update_null_bypasses_validation (today : Int) (movie_id : Nat)
    (data : MovieUpdateSchema) (db : DB) (movie : MovieModel)
    (hfound : db.movies.find? (fun m => m.id == movie_id) = some movie)
    (hscore : data.score = .unset ∨ data.score = .null)
    (hbudget : data.budget = .unset ∨ data.budget = .null)
    (hrevenue : data.revenue = .unset ∨ data.revenue = .null)
    (hdate : data.date = .unset ∨ data.date = .null)
    (hstatus : data.status = .unset ∨ data.status = .null) :
    ∃ db2 movie2,
      update_movie today movie_id data db = .ok ("Movie updated successfully.", db2) ∧
      db2.movies.find? (fun m => m.id == movie_id) = some movie2 ∧
      (data.score = .null → movie2.score = none) ∧
      (data.budget = .null → movie2.budget = none) ∧
      (data.revenue = .null → movie2.revenue = none) ∧
      (data.date = .null → movie2.date = none) ∧
      (data.status = .null → movie2.status = none) := by
  have hval : validate_movie_fields_for_update today data = none := by
    rw [validate_update_none_iff]
    refine ⟨?_, ?_, ?_, ?_, ?_⟩
    · rcases hscore with h | h <;> rw [h] <;> rfl
    · rcases hbudget with h | h <;> rw [h] <;> rfl
    · rcases hrevenue with h | h <;> rw [h] <;> rfl
    · rcases hdate with h | h <;> rw [h] <;> rfl
    · rcases hstatus with h | h <;> rw [h] <;> rfl
  set st : Option MovieStatusEnum :=
    (match data.status with
     | .unset => movie.status
     | .null => none
     | .val _ => none) with hstdef
  have hst : (match data.status with
      | .unset => some movie.status
      | .null => some (none : Option MovieStatusEnum)
      | .val v => (MovieStatusEnum.ofString? v).map some) = some st := by
    rcases hstatus with h | h <;> rw [h] at hstdef ⊢ <;> rw [hstdef]
  have hok := update_movie_ok today movie_id data db movie st hfound hval hst
  set movie2 : MovieModel :=
    { movie with
      name := applyPatch data.name movie.name,
      date := applyPatch data.date movie.date,
      score := applyPatch data.score movie.score,
      overview := applyPatch data.overview movie.overview,
      status := st,
      budget := applyPatch data.budget movie.budget,
      revenue := applyPatch data.revenue movie.revenue } with hm2
  refine ⟨_, movie2, hok, ?_, ?_, ?_, ?_, ?_, ?_⟩
  · exact find?_replace db.movies movie_id movie movie2 hfound rfl
  · intro h; rw [hm2]; simp only [applyPatch, h]
  · intro h; rw [hm2]; simp only [applyPatch, h]
  · intro h; rw [hm2]; simp only [applyPatch, h]
  · intro h; rw [hm2]; simp only [applyPatch, h]
  · intro h
    rw [hm2]
    show st = none
    rw [hstdef, h]


/-- C9 witness: the all-null payload on `dbOne` is accepted and writes
null into all five fields. -/
theorem update_null_bypasses_validation_witness :
    ∃ db2 movie2,
      update_movie 0 1 updAllNull dbOne = .ok ("Movie updated successfully.", db2) ∧
      db2.movies.find? (fun m => m.id == 1) = some movie2 ∧
      (updAllNull.score = .null → movie2.score = none) ∧
      (updAllNull.budget = .null → movie2.budget = none) ∧
      (updAllNull.revenue = .null → movie2.revenue = none) ∧
      (updAllNull.date = .null → movie2.date = none) ∧
      (updAllNull.status = .null → movie2.status = none) :=
  update_null_bypasses_validation 0 1 updAllNull dbOne
    { id := 1, name := some "A", date := some 10, score := some 50, overview := some "o",
      status := some .released, budget := some 100, revenue := some 200, countryId := 1 }
    (by decide) (by decide) (by decide) (by decide) (by decide) (by decide)

/-- Applying an accepted, null-free patch keeps every bounds field in
range: untouched fields keep their old in-range value, value fields
were range-checked by the update validation. -/
lemma movieBoundsOK_patch (today : Int) (data : MovieUpdateSchema) (movie : MovieModel)
    (st : Option MovieStatusEnum)
    (hs : data.score ≠ .null) (hb : data.budget ≠ .null)
    (hv : data.revenue ≠ .null) (hd : data.date ≠ .null)
    (hval : validate_movie_fields_for_update today data = none)
    (hmb : movieBoundsOK today movie = true) :
    movieBoundsOK today
      { movie with
        name := applyPatch data.name movie.name,
        date := applyPatch data.date movie.date,
        score := applyPatch data.score movie.score,
        overview := applyPatch data.overview movie.overview,
        status := st,
        budget := applyPatch data.budget movie.budget,
        revenue := applyPatch data.revenue movie.revenue } = true := by
  obtain ⟨hf1, hf2, hf3, hf4, -⟩ := (validate_update_none_iff today data).mp hval
  unfold movieBoundsOK at hmb ⊢
  simp only [Bool.and_eq_true] at hmb ⊢
  obtain ⟨⟨⟨hms, hmbud⟩, hmrev⟩, hmdate⟩ := hmb
  refine ⟨⟨⟨?_, ?_⟩, ?_⟩, ?_⟩
  · rcases hq : data.score with _ | _ | s
    · simpa [applyPatch, hq] using hms
    · exact absurd hq hs
    · rw [hq] at hf1
      simp only [scoreViolates, Bool.or_eq_false_iff, decide_eq_false_iff_not] at hf1
      simp only [applyPatch, hq]
      simp [not_lt.mp hf1.1, not_lt.mp hf1.2]
  · rcases hq : data.budget with _ | _ | b
    · simpa [applyPatch, hq] using hmbud
    · exact absurd hq hb
    · rw [hq] at hf2
      simp only [nonnegViolates, decide_eq_false_iff_not] at hf2
      simp only [applyPatch, hq]
      simp [not_lt.mp hf2]
  · rcases hq : data.revenue with _ | _ | v
    · simpa [applyPatch, hq] using hmrev
    · exact absurd hq hv
    · rw [hq] at hf3
      simp only [nonnegViolates, decide_eq_false_iff_not] at hf3
      simp only [applyPatch, hq]
      simp [not_lt.mp hf3]
  · rcases hq : data.date with _ | _ | d
    · simpa [applyPatch, hq] using hmdate
    · exact absurd hq hd
    · rw [hq] at hf4
      simp only [dateViolates, decide_eq_false_iff_not] at hf4
      simp only [applyPatch, hq]
      simp [not_lt.mp hf4]

/-- The commit of an accepted, null-free patch keeps the bounds of
every stored row. -/
lemma bounds_after_map (today : Int) (movie_id : Nat) (data : MovieUpdateSchema)
    (db : DB) (movie : MovieModel) (st : Option MovieStatusEnum)
    (hmovie : movie ∈ db.movies)
    (hs : data.score ≠ .null) (hb : data.budget ≠ .null)
    (hv : data.revenue ≠ .null) (hd : data.date ≠ .null)
    (hval : validate_movie_fields_for_update today data = none)
    (hpre : ∀ m ∈ db.movies, movieBoundsOK today m = true) :
    ∀ m ∈ db.movies.map (fun x => if x.id == movie_id then
      { movie with
        name := applyPatch data.name movie.name,
        date := applyPatch data.date movie.date,
        score := applyPatch data.score movie.score,
        overview := applyPatch data.overview movie.overview,
        status := st,
        budget := applyPatch data.budget movie.budget,
        revenue := applyPatch data.revenue movie.revenue } else x),
      movieBoundsOK today m = true := by
  intro m hm
  rcases List.mem_map.mp hm with ⟨x, hx, rfl⟩
  by_cases hxid : (x.id == movie_id) = true
  · rw [if_pos hxid]
    exact movieBoundsOK_patch today data movie st hs hb hv hd hval (hpre movie hmovie)
  · rw [if_neg hxid]
    exact hpre x hx

/-- C2 (amended): after any accepted partial update in which no
present field among score / budget / revenue / date is explicitly
null, every stored movie that satisfied the scalar bounds still does.
The original claim (any accepted payload, explicitly-null fields
included) fails: an explicit null passes validation and is written. -/
theorem update_nonnull_preserves_bounds (today : Int) (movie_id : Nat)
    (data : MovieUpdateSchema) (db : DB) (r : String) (db2 : DB)
    (hok : update_movie today movie_id data db = .ok (r, db2))
    (hs : data.score ≠ .null) (hb : data.budget ≠ .null)
    (hv : data.revenue ≠ .null) (hd : data.date ≠ .null)
    (hpre : ∀ m ∈ db.movies, movieBoundsOK today m = true) :
    ∀ m ∈ db2.movies, movieBoundsOK today m = true := by
  rcases hfind : db.movies.find? (fun m => m.id == movie_id) with _ | movie
  · simp [update_movie, hfind] at hok
  rcases hval : validate_movie_fields_for_update today data with _ | e
  swap
  · simp [update_movie, hfind, hval] at hok
  have hmovie : movie ∈ db.movies := List.mem_of_find?_eq_some hfind
  rcases hq : data.status with _ | _ | v
  · simp only [update_movie, hfind, hval, hq, Except.ok.injEq, Prod.mk.injEq] at hok
    rw [← hok.2]
    intro m hm
    exact bounds_after_map today movie_id data db movie movie.status hmovie hs hb hv hd hval hpre m hm
  · simp only [update_movie, hfind, hval, hq, Except.ok.injEq, Prod.mk.injEq] at hok
    rw [← hok.2]
    intro m hm
    exact bounds_after_map today movie_id data db movie none hmovie hs hb hv hd hval hpre m hm
  · rcases ho : MovieStatusEnum.ofString? v with _ | e2
    · simp [update_movie, hfind, hval, hq, ho] at hok
    · simp only [update_movie, hfind, hval, hq, ho, Except.ok.injEq, Prod.mk.injEq] at hok
      rw [← hok.2]
      intro m hm
      exact bounds_after_map today movie_id data db movie (some e2) hmovie hs hb hv hd hval hpre m hm

/-- Country get-or-create touches only the country table and its
counter. -/
lemma getOrCreateCountry_frame (code : String) (db : DB) :
    ((getOrCreateCountry code db).2.movies = db.movies) ∧
    ((getOrCreateCountry code db).2.nextMovieId = db.nextMovieId) ∧
    ((getOrCreateCountry code db).2.genres = db.genres) ∧
    ((getOrCreateCountry code db).2.nextGenreId = db.nextGenreId) ∧
    ((getOrCreateCountry code db).2.actors = db.actors) ∧
    ((getOrCreateCountry code db).2.nextActorId = db.nextActorId) ∧
    ((getOrCreateCountry code db).2.languages = db.languages) ∧
    ((getOrCreateCountry code db).2.nextLanguageId = db.nextLanguageId) := by
  unfold getOrCreateCountry
  cases db.countries.find? (fun c => c.code == code) <;> simp

/-- Genre get-or-create touches only the genre table and its
counter. -/
lemma getOrCreateGenre_frame (name : String) (db : DB) :
    ((getOrCreateGenre name db).2.movies = db.movies) ∧
    ((getOrCreateGenre name db).2.nextMovieId = db.nextMovieId) ∧
    ((getOrCreateGenre name db).2.countries = db.countries) ∧
    ((getOrCreateGenre name db).2.nextCountryId = db.nextCountryId) ∧
    ((getOrCreateGenre name db).2.actors = db.actors) ∧
    ((getOrCreateGenre name db).2.nextActorId = db.nextActorId) ∧
    ((getOrCreateGenre name db).2.languages = db.languages) ∧
    ((getOrCreateGenre name db).2.nextLanguageId = db.nextLanguageId) := by
  unfold getOrCreateGenre
  cases db.genres.find? (fun g => g.name == name) <;> simp

/-- Actor get-or-create touches only the actor table and its
counter. -/
lemma getOrCreateActor_frame (name : String) (db : DB) :
    ((getOrCreateActor name db).2.movies = db.movies) ∧
    ((getOrCreateActor name db).2.nextMovieId = db.nextMovieId) ∧
    ((getOrCreateActor name db).2.countries = db.countries) ∧
    ((getOrCreateActor name db).2.nextCountryId = db.nextCountryId) ∧
    ((getOrCreateActor name db).2.genres = db.genres) ∧
    ((getOrCreateActor name db).2.nextGenreId = db.nextGenreId) ∧
    ((getOrCreateActor name db).2.languages = db.languages) ∧
    ((getOrCreateActor name db).2.nextLanguageId = db.nextLanguageId) := by
  unfold getOrCreateActor
  cases db.actors.find? (fun a => a.name == name) <;> simp

/-- Language get-or-create touches only the language table and its
counter. -/
lemma getOrCreateLanguage_frame (name : String) (db : DB) :
    ((getOrCreateLanguage name db).2.movies = db.movies) ∧
    ((getOrCreateLanguage name db).2.nextMovieId = db.nextMovieId) ∧
    ((getOrCreateLanguage name db).2.countries = db.countries) ∧
    ((getOrCreateLanguage name db).2.nextCountryId = db.nextCountryId) ∧
    ((getOrCreateLanguage name db).2.genres = db.genres) ∧
    ((getOrCreateLanguage name db).2.nextGenreId = db.nextGenreId) ∧
    ((getOrCreateLanguage name db).2.actors = db.actors) ∧
    ((getOrCreateLanguage name db).2.nextActorId = db.nextActorId) := by
  unfold getOrCreateLanguage
  cases db.languages.find? (fun l => l.name == name) <;> simp

/-- The genre loop touches only the genre table and its counter. -/
lemma getOrCreateGenres_frame (names : List String) (db : DB) :
    ((getOrCreateGenres names db).2.movies = db.movies) ∧
    ((getOrCreateGenres names db).2.nextMovieId = db.nextMovieId) ∧
    ((getOrCreateGenres names db).2.countries = db.countries) ∧
    ((getOrCreateGenres names db).2.nextCountryId = db.nextCountryId) ∧
    ((getOrCreateGenres names db).2.actors = db.actors) ∧
    ((getOrCreateGenres names db).2.nextActorId = db.nextActorId) ∧
    ((getOrCreateGenres names db).2.languages = db.languages) ∧
    ((getOrCreateGenres names db).2.nextLanguageId = db.nextLanguageId) := by
  induction names generalizing db with
  | nil => simp [getOrCreateGenres]
  | cons n ns ih =>
    simp only [getOrCreateGenres]
    obtain ⟨a1, a2, a3, a4, a5, a6, a7, a8⟩ := getOrCreateGenre_frame n db
    obtain ⟨b1, b2, b3, b4, b5, b6, b7, b8⟩ := ih (getOrCreateGenre n db).2
    exact ⟨b1.trans a1, b2.trans a2, b3.trans a3, b4.trans a4, b5.trans a5,
           b6.trans a6, b7.trans a7, b8.trans a8⟩

/-- The actor loop touches only the actor table and its counter. -/
lemma getOrCreateActors_frame (names : List String) (db : DB) :
    ((getOrCreateActors names db).2.movies = db.movies) ∧
    ((getOrCreateActors names db).2.nextMovieId = db.nextMovieId) ∧
    ((getOrCreateActors names db).2.countries = db.countries) ∧
    ((getOrCreateActors names db).2.nextCountryId = db.nextCountryId) ∧
    ((getOrCreateActors names db).2.genres = db.genres) ∧
    ((getOrCreateActors names db).2.nextGenreId = db.nextGenreId) ∧
    ((getOrCreateActors names db).2.languages = db.languages) ∧
    ((getOrCreateActors names db).2.nextLanguageId = db.nextLanguageId) := by
  induction names generalizing db with
  | nil => simp [getOrCreateActors]
  | cons n ns ih =>
    simp only [getOrCreateActors]
    obtain ⟨a1, a2, a3, a4, a5, a6, a7, a8⟩ := getOrCreateActor_frame n db
    obtain ⟨b1, b2, b3, b4, b5, b6, b7, b8⟩ := ih (getOrCreateActor n db).2
    exact ⟨b1.trans a1, b2.trans a2, b3.trans a3, b4.trans a4, b5.trans a5,
           b6.trans a6, b7.trans a7, b8.trans a8⟩

/-- The language loop touches only the language table and its
counter. -/
lemma getOrCreateLanguages_frame (names : List String) (db : DB) :
    ((getOrCreateLanguages names db).2.movies = db.movies) ∧
    ((getOrCreateLanguages names db).2.nextMovieId = db.nextMovieId) ∧
    ((getOrCreateLanguages names db).2.countries = db.countries) ∧
    ((getOrCreateLanguages names db).2.nextCountryId = db.nextCountryId) ∧
    ((getOrCreateLanguages names db).2.genres = db.genres) ∧
    ((getOrCreateLanguages names db).2.nextGenreId = db.nextGenreId) ∧
    ((getOrCreateLanguages names db).2.actors = db.actors) ∧
    ((getOrCreateLanguages names db).2.nextActorId = db.nextActorId) := by
  induction names generalizing db with
  | nil => simp [getOrCreateLanguages]
  | cons n ns ih =>
    simp only [getOrCreateLanguages]
    obtain ⟨a1, a2, a3, a4, a5, a6, a7, a8⟩ := getOrCreateLanguage_frame n db
    obtain ⟨b1, b2, b3, b4, b5, b6, b7, b8⟩ := ih (getOrCreateLanguage n db).2
    exact ⟨b1.trans a1, b2.trans a2, b3.trans a3, b4.trans a4, b5.trans a5,
           b6.trans a6, b7.trans a7, b8.trans a8⟩

/-- Through the whole get-or-create chain of `create_movie`, the movie
table and its counter never change. -/
lemma create_movies_chain (sch : MovieCreateSchema) (db : DB) :
    (getOrCreateLanguages sch.languages
      (getOrCreateActors sch.actors
        (getOrCreateGenres sch.genres
          (getOrCreateCountry sch.country db).2).2).2).2.movies = db.movies ∧
    (getOrCreateLanguages sch.languages
      (getOrCreateActors sch.actors
        (getOrCreateGenres sch.genres
          (getOrCreateCountry sch.country db).2).2).2).2.nextMovieId = db.nextMovieId := by
  obtain ⟨a1, a2, -⟩ := getOrCreateCountry_frame sch.country db
  obtain ⟨b1, b2, -⟩ := getOrCreateGenres_frame sch.genres (getOrCreateCountry sch.country db).2
  obtain ⟨c1, c2, -⟩ := getOrCreateActors_frame sch.actors
    (getOrCreateGenres sch.genres (getOrCreateCountry sch.country db).2).2
  obtain ⟨d1, d2, -⟩ := getOrCreateLanguages_frame sch.languages
    (getOrCreateActors sch.actors
      (getOrCreateGenres sch.genres (getOrCreateCountry sch.country db).2).2).2
  exact ⟨d1.trans (c1.trans (b1.trans a1)), d2.trans (c2.trans (b2.trans a2))⟩

/-- Shape of a successful create: the duplicate check was clean and
exactly one movie row, carrying the payload's name and date, was
appended. -/
lemma create_movie_ok_movies (today : Int) (sch : MovieCreateSchema) (db : DB)
    (d : Option MovieDetail) (db2 : DB)
    (h : create_movie today sch db = .ok (d, db2)) :
    db.movies.find? (fun m => m.name == some sch.name && m.date == some sch.date) = none ∧
    ∃ nm : MovieModel, db2.movies = db.movies ++ [nm] ∧
      nm.name = some sch.name ∧ nm.date = some sch.date := by
  unfold create_movie at h
  rcases hval : validate_movie_fields_for_create today sch with _ | e
  swap
  · rw [hval] at h; cases h
  rw [hval] at h
  rcases hdup : db.movies.find? (fun m => m.name == some sch.name && m.date == some sch.date)
    with _ | m
  swap
  · rw [hdup] at h; cases h
  rw [hdup] at h
  rcases ho : MovieStatusEnum.ofString? sch.status with _ | st
  · rw [ho] at h; cases h
  rw [ho] at h
  simp only [Except.ok.injEq, Prod.mk.injEq] at h
  obtain ⟨hmv, hnext⟩ := create_movies_chain sch db
  set cdb := getOrCreateCountry sch.country db with hc
  set gdb := getOrCreateGenres sch.genres cdb.2 with hg
  set adb := getOrCreateActors sch.actors gdb.2 with ha2
  set ldb := getOrCreateLanguages sch.languages adb.2 with hl
  set nm : MovieModel :=
    { id := ldb.2.nextMovieId, name := some sch.name, date := some sch.date,
      score := some sch.score, overview := some sch.overview, status := some st,
      budget := some sch.budget, revenue := some sch.revenue, countryId := cdb.1.id,
      genreIds := gdb.1, actorIds := adb.1, languageIds := ldb.1 } with hnm
  refine ⟨hdup, ⟨nm, ?_, ?_, ?_⟩⟩
  · rw [← h.2]
    show ldb.2.movies ++ [nm] = db.movies ++ [nm]
    rw [hmv]
  · rw [hnm]
  · rw [hnm]


/-- C2 counterexample: the stored movie of `dbOne` satisfies all scalar
bounds, the explicit-null-score payload is accepted, and afterwards the
store no longer satisfies them (the score is null, hence in no range),
refuting the claim for payloads with explicitly null fields. -/
theorem update_null_score_breaks_bounds :
    (∀ m ∈ dbOne.movies, movieBoundsOK 0 m = true) ∧
    update_movie 0 1 { score := Patch.null } dbOne =
      .ok ("Movie updated successfully.", dbOneNullScore) ∧
    ¬ (∀ m ∈ dbOneNullScore.movies, movieBoundsOK 0 m = true) := by
  decide

/-- C2 witness: updating the score to 60 keeps the bounds of the one
stored movie. -/
theorem update_nonnull_preserves_bounds_witness :
    movieBoundsOK 0
      { id := 1, name := some "A", date := some 10, score := some 60,
        overview := some "o", status := some .released, budget := some 100,
        revenue := some 200, countryId := 1 } = true :=
  update_nonnull_preserves_bounds 0 1 { score := .val 60 } dbOne
    "Movie updated successfully." dbOneScore60 (by decide) (by decide) (by decide)
    (by decide) (by decide) (by decide)
    { id := 1, name := some "A", date := some 10, score := some 60,
      overview := some "o", status := some .released, budget := some 100,
      revenue := some 200, countryId := 1 } (by decide)

/-- C3 counterexample: `dbTwo` has two movies with distinct
(name, date) pairs; the PATCH renaming/redating movie 2 onto movie 1's
pair is accepted without any duplicate check, leaving two stored movies
that share both name and date. -/
theorem update_can_duplicate_name_date :
    moviePairUnique dbTwo ∧
    update_movie 0 2 { name := Patch.val "A", date := Patch.val 10 } dbTwo =
      .ok ("Movie updated successfully.", dbTwoDup) ∧
    ¬ moviePairUnique dbTwoDup := by
  decide

/-- C3 (amended): the create operation preserves uniqueness of the
(name, date) pair — it refuses with Conflict any payload that would
collide — and so does delete; the partial-update handler performs no
duplicate check, and an update that changes name and/or date can break
the invariant (see the counterexample). -/
theorem create_preserves_name_date_unique (today : Int) (sch : MovieCreateSchema)
    (movie_id : Nat) (db : DB) (hu : moviePairUnique db) :
    (∀ d db2, create_movie today sch db = .ok (d, db2) → moviePairUnique db2) ∧
    (∀ db2, delete_movie movie_id db = .ok db2 → moviePairUnique db2) := by
  constructor
  · intro d db2 h
    obtain ⟨hdup, nm, hmv, hname, hdate⟩ := create_movie_ok_movies today sch db d db2 h
    unfold moviePairUnique at hu ⊢
    rw [hmv, List.pairwise_append]
    refine ⟨hu, List.pairwise_singleton _ _, ?_⟩
    intro a ha b hb
    rw [List.mem_singleton] at hb
    subst hb
    rw [List.find?_eq_none] at hdup
    have hnd := hdup a ha
    intro hcon
    apply hnd
    rw [hname, hdate] at hcon
    simp [hcon.1, hcon.2]
  · intro db2 h
    unfold delete_movie at h
    rcases hf : db.movies.find? (fun m => m.id == movie_id) with _ | m
    · rw [hf] at h; cases h
    · rw [hf] at h
      injection h with h
      rw [← h]
      exact hu.sublist (List.filter_sublist _)

/-- C3 witness: a fresh create over `dbOne` and a delete both preserve
pair uniqueness. -/
theorem create_preserves_name_date_unique_witness :
    (∀ d db2, create_movie 0 schB dbOne = .ok (d, db2) → moviePairUnique db2) ∧
    (∀ db2, delete_movie 1 dbOne = .ok db2 → moviePairUnique db2) :=
  create_preserves_name_date_unique 0 schB 1 dbOne (by decide)

/-- C4 counterexample: a payload whose (name, date) duplicates the
stored movie but whose score is invalid fails with 400 InvalidInput,
not 409 Conflict — field validation runs before the duplicate check, so
the claim's "regardless of all other fields" fails. -/
theorem duplicate_with_invalid_score_gives_400 :
    (∃ m ∈ dbOne.movies, m.name = some schDupBad.name ∧ m.date = some schDupBad.date) ∧
    create_movie 0 schDupBad dbOne = .error invalidInput ∧
    invalidInput.status_code ≠ 409 := by
  decide

/-- C4 (amended): for a create payload that passes the field
validation, a stored movie with the same name and date makes the
operation fail with 409 and the message naming the offending pair; the
handler errors before any insert, so nothing is added. -/
theorem duplicate_after_validation_gives_409 (today : Int) (sch : MovieCreateSchema)
    (db : DB) (m : MovieModel)
    (hval : validate_movie_fields_for_create today sch = none)
    (hm : m ∈ db.movies) (hname : m.name = some sch.name) (hdate : m.date = some sch.date) :
    create_movie today sch db =
      .error { status_code := 409, detail := conflict_detail sch.name sch.date } := by
  unfold create_movie
  rw [hval]
  rcases hdup : db.movies.find? (fun x => x.name == some sch.name && x.date == some sch.date)
    with _ | x
  · exfalso
    rw [List.find?_eq_none] at hdup
    exact (hdup m hm) (by simp [hname, hdate])
  · rw [hdup]

/-- C4 witness: the valid duplicate payload over `dbOne` draws the 409
with its message. -/
theorem duplicate_after_validation_gives_409_witness :
    create_movie 0 schDupOk dbOne =
      .error { status_code := 409, detail := conflict_detail schDupOk.name schDupOk.date } :=
  duplicate_after_validation_gives_409 0 schDupOk dbOne
    { id := 1, name := some "A", date := some 10, score := some 50, overview := some "o",
      status := some .released, budget := some 100, revenue := some 200, countryId := 1 }
    (by decide) (by decide) (by decide) (by decide)

/-- Status strings of the allowed set convert to the enum and
serialize back to themselves. -/
lemma status_roundtrip (s : String) (hs : s ∈ ALLOWED_STATUSES) :
    ∃ e, MovieStatusEnum.ofString? s = some e ∧ MovieStatusEnum.toStr e = s := by
  simp only [ALLOWED_STATUSES, List.mem_cons, List.not_mem_nil, or_false] at hs
  rcases hs with rfl | rfl | rfl
  · exact ⟨.released, rfl, rfl⟩
  · exact ⟨.post_production, rfl, rfl⟩
  · exact ⟨.in_production, rfl, rfl⟩

/-- Fields of a schema instance constructed from an accepted raw
payload, and the facts the validators enforced on the raw fields. -/
lemma mk_success_fields (raw : MovieCreateInput) (sch : MovieCreateSchema)
    (h : mkMovieCreateSchema raw = some sch) :
    sch.name = raw.name ∧ sch.date = raw.date ∧ sch.score = raw.score ∧
    sch.overview = raw.overview ∧ sch.status = raw.status ∧
    sch.budget = raw.budget ∧ sch.revenue = raw.revenue ∧
    sch.country = pyUpper raw.country ∧ sch.genres = raw.genres ∧
    sch.actors = raw.actors ∧ sch.languages = raw.languages ∧
    raw.status ∈ ALLOWED_STATUSES ∧
    raw.country.length = 3 ∧ pyIsAlpha raw.country = true := by
  unfold mkMovieCreateSchema at h
  split at h
  · cases h
  rcases hs : MovieCreateSchema.validate_status raw.status with _ | st
  · rw [hs] at h; cases h
  rw [hs] at h
  rcases hc : MovieCreateSchema.validate_country raw.country with _ | c
  · rw [hc] at h; cases h
  rw [hc] at h
  simp only [Option.some_bind, Option.map_some'] at h
  unfold MovieCreateSchema.validate_status at hs
  unfold MovieCreateSchema.validate_country at hc
  split at hs
  case isFalse => cases hs
  case isTrue hmem =>
  injection hs with hs
  split at hc
  case isTrue => cases hc
  case isFalse hcv =>
  injection hc with hc
  rw [not_or] at hcv
  obtain ⟨hclen, hcalpha⟩ := hcv
  rw [Ne, not_not] at hclen  -- careful: hclen : ¬(raw.country.length ≠ 3)
  injection h with h
  subst h
  refine ⟨rfl, rfl, rfl, rfl, ?_, rfl, rfl, ?_, rfl, rfl, rfl, ?_, ?_, ?_⟩
  · rw [← hs]
  · rw [← hc]
  · exact hmem
  · exact hclen
  · rcases hba : pyIsAlpha raw.country with _ | _
    · exact absurd rfl (hba ▸ hcalpha)
    · rfl

/-- C10: every payload the create schema accepts carries a status in
the allowed set, and the enum conversion in the handler succeeds on it,
so the handler's conversion-failure branch cannot fire on
schema-accepted input. -/
theorem schema_status_conversion_total (raw : MovieCreateInput) (sch : MovieCreateSchema)
    (h : mkMovieCreateSchema raw = some sch) :
    sch.status ∈ ALLOWED_STATUSES ∧ (MovieStatusEnum.ofString? sch.status).isSome = true := by
  obtain ⟨-, -, -, -, hst, -, -, -, -, -, -, hmem, -, -⟩ := mk_success_fields raw sch h
  rw [hst]
  refine ⟨hmem, ?_⟩
  obtain ⟨e, he, -⟩ := status_roundtrip raw.status hmem
  rw [he]
  rfl

/-- C10 witness: the concrete payload `rawA` parses to `schA`, whose
status is allowed and converts. -/
theorem schema_status_conversion_total_witness :
    schA.status ∈ ALLOWED_STATUSES ∧ (MovieStatusEnum.ofString? schA.status).isSome = true :=
  schema_status_conversion_total rawA schA (by decide)

/-- Country get-or-create preserves uniqueness of country codes: it
reuses the row found by code, and only inserts when no row has the
code. -/
lemma getOrCreateCountry_codes_nodup (code : String) (db : DB)
    (h : (db.countries.map CountryModel.code).Nodup) :
    (((getOrCreateCountry code db).2.countries).map CountryModel.code).Nodup := by
  unfold getOrCreateCountry
  rcases hf : db.countries.find? (fun c => c.code == code) with _ | c
  · rw [hf]
    rw [List.find?_eq_none] at hf
    simp only [List.map_append, List.map_cons, List.map_nil]
    rw [List.nodup_append]
    refine ⟨h, List.nodup_singleton _, ?_⟩
    intro a ha hb
    rw [List.mem_singleton] at hb
    subst hb
    rcases List.mem_map.mp ha with ⟨x, hx, hxa⟩
    exact (hf x hx) (by simp [hxa])
  · rw [hf]
    exact h

/-- Genre get-or-create preserves uniqueness of genre names. -/
lemma getOrCreateGenre_names_nodup (name : String) (db : DB)
    (h : (db.genres.map GenreModel.name).Nodup) :
    (((getOrCreateGenre name db).2.genres).map GenreModel.name).Nodup := by
  unfold getOrCreateGenre
  rcases hf : db.genres.find? (fun g => g.name == name) with _ | g
  · rw [hf]
    rw [List.find?_eq_none] at hf
    simp only [List.map_append, List.map_cons, List.map_nil]
    rw [List.nodup_append]
    refine ⟨h, List.nodup_singleton _, ?_⟩
    intro a ha hb
    rw [List.mem_singleton] at hb
    subst hb
    rcases List.mem_map.mp ha with ⟨x, hx, hxa⟩
    exact (hf x hx) (by simp [hxa])
  · rw [hf]
    exact h

/-- Actor get-or-create preserves uniqueness of actor names. -/
lemma getOrCreateActor_names_nodup (name : String) (db : DB)
    (h : (db.actors.map ActorModel.name).Nodup) :
    (((getOrCreateActor name db).2.actors).map ActorModel.name).Nodup := by
  unfold getOrCreateActor
  rcases hf : db.actors.find? (fun a => a.name == name) with _ | a
  · rw [hf]
    rw [List.find?_eq_none] at hf
    simp only [List.map_append, List.map_cons, List.map_nil]
    rw [List.nodup_append]
    refine ⟨h, List.nodup_singleton _, ?_⟩
    intro x hx hb
    rw [List.mem_singleton] at hb
    subst hb
    rcases List.mem_map.mp hx with ⟨y, hy, hya⟩
    exact (hf y hy) (by simp [hya])
  · rw [hf]
    exact h

/-- Language get-or-create preserves uniqueness of language names. -/
lemma getOrCreateLanguage_names_nodup (name : String) (db : DB)
    (h : (db.languages.map LanguageModel.name).Nodup) :
    (((getOrCreateLanguage name db).2.languages).map LanguageModel.name).Nodup := by
  unfold getOrCreateLanguage
  rcases hf : db.languages.find? (fun l => l.name == name) with _ | l
  · rw [hf]
    rw [List.find?_eq_none] at hf
    simp only [List.map_append, List.map_cons, List.map_nil]
    rw [List.nodup_append]
    refine ⟨h, List.nodup_singleton _, ?_⟩
    intro x hx hb
    rw [List.mem_singleton] at hb
    subst hb
    rcases List.mem_map.mp hx with ⟨y, hy, hya⟩
    exact (hf y hy) (by simp [hya])
  · rw [hf]
    exact h

/-- The genre loop preserves uniqueness of genre names. -/
lemma getOrCreateGenres_names_nodup (names : List String) (db : DB)
    (h : (db.genres.map GenreModel.name).Nodup) :
    (((getOrCreateGenres names db).2.genres).map GenreModel.name).Nodup := by
  induction names generalizing db with
  | nil => exact h
  | cons n ns ih =>
    simp only [getOrCreateGenres]
    exact ih (getOrCreateGenre n db).2 (getOrCreateGenre_names_nodup n db h)

/-- The actor loop preserves uniqueness of actor names. -/
lemma getOrCreateActors_names_nodup (names : List String) (db : DB)
    (h : (db.actors.map ActorModel.name).Nodup) :
    (((getOrCreateActors names db).2.actors).map ActorModel.name).Nodup := by
  induction names generalizing db with
  | nil => exact h
  | cons n ns ih =>
    simp only [getOrCreateActors]
    exact ih (getOrCreateActor n db).2 (getOrCreateActor_names_nodup n db h)

/-- The language loop preserves uniqueness of language names. -/
lemma getOrCreateLanguages_names_nodup (names : List String) (db : DB)
    (h : (db.languages.map LanguageModel.name).Nodup) :
    (((getOrCreateLanguages names db).2.languages).map LanguageModel.name).Nodup := by
  induction names generalizing db with
  | nil => exact h
  | cons n ns ih =>
    simp only [getOrCreateLanguages]
    exact ih (getOrCreateLanguage n db).2 (getOrCreateLanguage_names_nodup n db h)

/-- A successful create keeps each reference table free of duplicate
natural keys. -/
lemma create_movie_refRowsUnique (today : Int) (sch : MovieCreateSchema) (db : DB)
    (d : Option MovieDetail) (db2 : DB)
    (hc : create_movie today sch db = .ok (d, db2)) (h : refRowsUnique db) :
    refRowsUnique db2 := by
  unfold create_movie at hc
  rcases hval : validate_movie_fields_for_create today sch with _ | e
  swap
  · rw [hval] at hc; cases hc
  rw [hval] at hc
  rcases hdup : db.movies.find? (fun m => m.name == some sch.name && m.date == some sch.date)
    with _ | m
  swap
  · rw [hdup] at hc; cases hc
  rw [hdup] at hc
  rcases ho : MovieStatusEnum.ofString? sch.status with _ | st
  · rw [ho] at hc; cases hc
  rw [ho] at hc
  simp only [Except.ok.injEq, Prod.mk.injEq] at hc
  rw [← hc.2]
  set cdb := getOrCreateCountry sch.country db with hcdb
  set gdb := getOrCreateGenres sch.genres cdb.2 with hgdb
  set adb := getOrCreateActors sch.actors gdb.2 with hadb
  set ldb := getOrCreateLanguages sch.languages adb.2 with hldb
  obtain ⟨-, -, cg, -, ca, -, cl, -⟩ := getOrCreateCountry_frame sch.country db
  obtain ⟨-, -, gc, -, ga, -, gl, -⟩ := getOrCreateGenres_frame sch.genres cdb.2
  obtain ⟨-, -, ac, -, ag, -, al, -⟩ := getOrCreateActors_frame sch.actors gdb.2
  obtain ⟨-, -, lc, -, lg, -, la, -⟩ := getOrCreateLanguages_frame sch.languages adb.2
  refine ⟨?_, ?_, ?_, ?_⟩
  · show ((ldb.2.countries).map CountryModel.code).Nodup
    rw [lc, ac, gc]
    exact getOrCreateCountry_codes_nodup sch.country db h.1
  · show ((ldb.2.genres).map GenreModel.name).Nodup
    rw [lg, ag]
    exact getOrCreateGenres_names_nodup sch.genres cdb.2 (cg ▸ h.2.1)
  · show ((ldb.2.actors).map ActorModel.name).Nodup
    rw [la]
    have hbase : (gdb.2.actors.map ActorModel.name).Nodup := by
      rw [ga, ca]; exact h.2.2.1
    exact getOrCreateActors_names_nodup sch.actors gdb.2 hbase
  · show ((ldb.2.languages).map LanguageModel.name).Nodup
    have hbase : (adb.2.languages.map LanguageModel.name).Nodup := by
      rw [al, gl, cl]; exact h.2.2.2
    exact getOrCreateLanguages_names_nodup sch.languages adb.2 hbase

/-- C5: over any sequence of sequential create requests, each reference
table keeps at most one row per natural key — an existing
country / genre / actor / language row is reused, a new one is inserted
only when its key is absent. -/
theorem create_many_preserves_ref_uniqueness (today : Int) (ps : List MovieCreateSchema)
    (db : DB) (h : refRowsUnique db) : refRowsUnique (createMany today ps db) := by
  induction ps generalizing db with
  | nil => exact h
  | cons p ps ih =>
    simp only [createMany]
    rcases hc : create_movie today p db with e | r
    · exact ih db h
    · exact ih r.2 (create_movie_refRowsUnique today p db r.1 r.2 (by rw [hc]) h)

/-- C5 witness: two identical creates (same country, genres, actors,
languages) from the empty store leave unique reference keys. -/
theorem create_many_preserves_ref_uniqueness_witness :
    refRowsUnique (createMany 0 [schB, schB] {}) :=
  create_many_preserves_ref_uniqueness 0 [schB, schB] {} (by decide)

/-- Uppercasing keeps a basic-latin letter alphabetic. -/
lemma isAlpha_toUpper (c : Char) (h : c.isAlpha = true) : c.toUpper.isAlpha = true := by
  by_cases hl : 97 ≤ c.toNat ∧ c.toNat ≤ 122
  · obtain ⟨h1, h2⟩ := hl
    have hc : c = Char.ofNat c.toNat := (Char.ofNat_toNat c).symm
    set n := c.toNat with hn
    interval_cases n <;> (rw [hc]; decide)
  · have : c.toUpper = c := by
      unfold Char.toUpper
      rw [if_neg]
      intro hcon
      exact hl ⟨hcon.1, hcon.2⟩
    rw [this]
    exact h

/-- Uppercasing preserves the character count. -/
lemma length_pyUpper (s : String) : (pyUpper s).length = s.length := by
  have h1 : (pyUpper s).length = (s.data.map Char.toUpper).length := rfl
  rw [h1, List.length_map]
  rfl

/-- Uppercasing preserves the isalpha check. -/
lemma pyIsAlpha_pyUpper (s : String) (h : pyIsAlpha s = true) :
    pyIsAlpha (pyUpper s) = true := by
  unfold pyIsAlpha at h ⊢
  simp only [pyUpper]
  rw [Bool.and_eq_true] at h ⊢
  obtain ⟨h1, h2⟩ := h
  constructor
  · simp only [Bool.not_eq_true'] at h1 ⊢
    simp only [List.isEmpty_eq_false] at h1 ⊢
    simp [h1]
  · rw [List.all_eq_true] at h2 ⊢
    intro x hx
    rcases List.mem_map.mp hx with ⟨y, hy, rfl⟩
    exact isAlpha_toUpper y (h2 y hy)

/-- The create field validation passes on in-range fields, an allowed
status and a 3-letter alphabetic country code. -/
lemma validate_create_none (today : Int) (sch : MovieCreateSchema)
    (hdate : sch.date ≤ today + 365) (hs1 : 0 ≤ sch.score) (hs2 : sch.score ≤ 100)
    (hb : 0 ≤ sch.budget) (hr : 0 ≤ sch.revenue)
    (hstat : sch.status ∈ ALLOWED_STATUSES)
    (hlen : sch.country.length = 3) (halpha : pyIsAlpha sch.country = true) :
    validate_movie_fields_for_create today sch = none := by
  unfold validate_movie_fields_for_create
  rw [if_neg (not_lt.mpr hdate)]
  rw [if_neg (not_or.mpr ⟨not_lt.mpr hs1, not_lt.mpr hs2⟩)]
  rw [if_neg (not_or.mpr ⟨not_lt.mpr hb, not_lt.mpr hr⟩)]
  rw [if_neg (not_not.mpr hstat)]
  rw [if_neg (not_or.mpr ⟨not_not.mpr hlen, by simp [halpha]⟩)]

/-- In a table with unique ids, the lookup by a member row's id returns
that row. -/
lemma find_by_id_of_mem {α : Type} (idOf : α → Nat) (l : List α) (c : α)
    (hmem : c ∈ l) (hnd : (l.map idOf).Nodup) :
    l.find? (fun x => idOf x == idOf c) = some c := by
  induction l with
  | nil => cases hmem
  | cons a as ih =>
    rw [List.find?_cons]
    rcases List.mem_cons.mp hmem with rfl | hmem2
    · simp
    · rw [List.map_cons, List.nodup_cons] at hnd
      have hne : idOf a ≠ idOf c := by
        intro he
        exact hnd.1 (he ▸ List.mem_map_of_mem idOf hmem2)
      have hfa : (idOf a == idOf c) = false := by simp [hne]
      rw [hfa]
      exact ih hmem2 hnd.2

/-- The resolved country row is stored and carries the requested
code. -/
lemma getOrCreateCountry_found (code : String) (db : DB) :
    (getOrCreateCountry code db).1 ∈ (getOrCreateCountry code db).2.countries ∧
    (getOrCreateCountry code db).1.code = code := by
  unfold getOrCreateCountry
  rcases hf : db.countries.find? (fun c => c.code == code) with _ | c
  · rw [hf]
    constructor
    · show _ ∈ db.countries ++ [_]
      exact List.mem_append_right _ (List.mem_singleton.mpr rfl)
    · rfl
  · rw [hf]
    refine ⟨List.mem_of_find?_eq_some hf, ?_⟩
    have := List.find?_some hf
    simpa using this

/-- Country get-or-create keeps primary keys unique: a new row takes
the fresh auto-increment id. -/
lemma getOrCreateCountry_ids (code : String) (db : DB)
    (h1 : ∀ c ∈ db.countries, c.id < db.nextCountryId)
    (h2 : (db.countries.map CountryModel.id).Nodup) :
    ((getOrCreateCountry code db).2.countries.map CountryModel.id).Nodup := by
  unfold getOrCreateCountry
  rcases hf : db.countries.find? (fun c => c.code == code) with _ | c
  · rw [hf]
    simp only [List.map_append, List.map_cons, List.map_nil]
    rw [List.nodup_append]
    refine ⟨h2, List.nodup_singleton _, ?_⟩
    intro a ha hb
    rw [List.mem_singleton] at hb
    subst hb
    rcases List.mem_map.mp ha with ⟨x, hx, hxa⟩
    exact absurd (hxa ▸ rfl) (Nat.ne_of_lt (h1 x hx))
  · rw [hf]
    exact h2

/-- The resolved genre row is stored, and old rows stay stored. -/
lemma getOrCreateGenre_found (name : String) (db : DB) :
    (getOrCreateGenre name db).1 ∈ (getOrCreateGenre name db).2.genres ∧
    ∀ g ∈ db.genres, g ∈ (getOrCreateGenre name db).2.genres := by
  unfold getOrCreateGenre
  rcases hf : db.genres.find? (fun g => g.name == name) with _ | g
  · rw [hf]
    constructor
    · exact List.mem_append_right _ (List.mem_singleton.mpr rfl)
    · intro g hg
      exact List.mem_append_left _ hg
  · rw [hf]
    exact ⟨List.mem_of_find?_eq_some hf, fun g hg => hg⟩

/-- Every id collected by the genre loop belongs to a stored genre row,
and the loop keeps old rows stored. -/
lemma getOrCreateGenres_resolvable (names : List String) (db : DB) :
    (∀ i ∈ (getOrCreateGenres names db).1,
      ∃ g ∈ (getOrCreateGenres names db).2.genres, g.id = i) ∧
    (∀ g ∈ db.genres, g ∈ (getOrCreateGenres names db).2.genres) := by
  induction names generalizing db with
  | nil => exact ⟨(by intro i hi; cases hi), fun g hg => hg⟩
  | cons n ns ih =>
    simp only [getOrCreateGenres]
    obtain ⟨hhead, hmono1⟩ := getOrCreateGenre_found n db
    obtain ⟨hids, hmono2⟩ := ih (getOrCreateGenre n db).2
    constructor
    · intro i hi
      rcases List.mem_cons.mp hi with rfl | hi2
      · exact ⟨(getOrCreateGenre n db).1, ⟨hmono2 _ hhead, rfl⟩⟩
      · exact hids i hi2
    · intro g hg
      exact hmono2 g (hmono1 g hg)

/-- The resolved actor row is stored, and old rows stay stored. -/
lemma getOrCreateActor_found (name : String) (db : DB) :
    (getOrCreateActor name db).1 ∈ (getOrCreateActor name db).2.actors ∧
    ∀ a ∈ db.actors, a ∈ (getOrCreateActor name db).2.actors := by
  unfold getOrCreateActor
  rcases hf : db.actors.find? (fun a => a.name == name) with _ | a
  · rw [hf]
    constructor
    · exact List.mem_append_right _ (List.mem_singleton.mpr rfl)
    · intro a ha
      exact List.mem_append_left _ ha
  · rw [hf]
    exact ⟨List.mem_of_find?_eq_some hf, fun a ha => ha⟩

/-- Every id collected by the actor loop belongs to a stored actor row,
and the loop keeps old rows stored. -/
lemma getOrCreateActors_resolvable (names : List String) (db : DB) :
    (∀ i ∈ (getOrCreateActors names db).1,
      ∃ a ∈ (getOrCreateActors names db).2.actors, a.id = i) ∧
    (∀ a ∈ db.actors, a ∈ (getOrCreateActors names db).2.actors) := by
  induction names generalizing db with
  | nil => exact ⟨(by intro i hi; cases hi), fun a ha => ha⟩
  | cons n ns ih =>
    simp only [getOrCreateActors]
    obtain ⟨hhead, hmono1⟩ := getOrCreateActor_found n db
    obtain ⟨hids, hmono2⟩ := ih (getOrCreateActor n db).2
    constructor
    · intro i hi
      rcases List.mem_cons.mp hi with rfl | hi2
      · exact ⟨(getOrCreateActor n db).1, ⟨hmono2 _ hhead, rfl⟩⟩
      · exact hids i hi2
    · intro a ha
      exact hmono2 a (hmono1 a ha)

/-- The resolved language row is stored, and old rows stay stored. -/
lemma getOrCreateLanguage_found (name : String) (db : DB) :
    (getOrCreateLanguage name db).1 ∈ (getOrCreateLanguage name db).2.languages ∧
    ∀ l ∈ db.languages, l ∈ (getOrCreateLanguage name db).2.languages := by
  unfold getOrCreateLanguage
  rcases hf : db.languages.find? (fun l => l.name == name) with _ | l
  · rw [hf]
    constructor
    · exact List.mem_append_right _ (List.mem_singleton.mpr rfl)
    · intro l hl
      exact List.mem_append_left _ hl
  · rw [hf]
    exact ⟨List.mem_of_find?_eq_some hf, fun l hl => hl⟩

/-- Every id collected by the language loop belongs to a stored
language row, and the loop keeps old rows stored. -/
lemma getOrCreateLanguages_resolvable (names : List String) (db : DB) :
    (∀ i ∈ (getOrCreateLanguages names db).1,
      ∃ l ∈ (getOrCreateLanguages names db).2.languages, l.id = i) ∧
    (∀ l ∈ db.languages, l ∈ (getOrCreateLanguages names db).2.languages) := by
  induction names generalizing db with
  | nil => exact ⟨(by intro i hi; cases hi), fun l hl => hl⟩
  | cons n ns ih =>
    simp only [getOrCreateLanguages]
    obtain ⟨hhead, hmono1⟩ := getOrCreateLanguage_found n db
    obtain ⟨hids, hmono2⟩ := ih (getOrCreateLanguage n db).2
    constructor
    · intro i hi
      rcases List.mem_cons.mp hi with rfl | hi2
      · exact ⟨(getOrCreateLanguage n db).1, ⟨hmono2 _ hhead, rfl⟩⟩
      · exact hids i hi2
    · intro l hl
      exact hmono2 l (hmono1 l hl)

/-- A monadic map over `Option` succeeds when every element maps to
`some`. -/
lemma mapM_option_exists {β : Type} (f : Nat → Option β) (l : List Nat)
    (h : ∀ a ∈ l, ∃ b, f a = some b) : ∃ bs, l.mapM f = some bs := by
  induction l with
  | nil => exact ⟨[], rfl⟩
  | cons a as ih =>
    obtain ⟨b, hb⟩ := h a (List.mem_cons_self a as)
    obtain ⟨bs, hbs⟩ := ih (fun x hx => h x (List.mem_cons_of_mem a hx))
    refine ⟨b :: bs, ?_⟩
    rw [List.mapM_cons, hb, hbs]
    rfl

/-- The re-SELECT by the fresh id finds the just-inserted row: every
older row has a smaller id. -/
lemma find_new_movie (l : List MovieModel) (nid : Nat) (nm : MovieModel)
    (hlt : ∀ m ∈ l, m.id < nid) (hid : nm.id = nid) :
    (l ++ [nm]).find? (fun m => m.id == nid) = some nm := by
  rw [List.find?_append]
  have hnone : l.find? (fun m => m.id == nid) = none := by
    rw [List.find?_eq_none]
    intro x hx
    simp only [beq_eq_false_iff_ne, ne_eq, Bool.not_eq_true]
    simp [Nat.ne_of_lt (hlt x hx)]
  rw [hnone]
  rw [Option.none_or]
  rw [List.find?_cons]
  simp [hid]

/-- Core of the create round-trip: when validation, the duplicate check
and the status conversion pass over a well-formed store, the handler
returns a detail payload whose scalar fields are the payload's fields
and whose country row carries the payload's code. -/
lemma create_movie_ok_detail (today : Int) (sch : MovieCreateSchema) (db : DB)
    (hWF : db.WF)
    (hval : validate_movie_fields_for_create today sch = none)
    (hdup : db.movies.find? (fun m => m.name == some sch.name && m.date == some sch.date) = none)
    (st : MovieStatusEnum) (hst : MovieStatusEnum.ofString? sch.status = some st) :
    ∃ d db2, create_movie today sch db = .ok (some d, db2) ∧
      d.name = sch.name ∧ d.date = sch.date ∧ d.score = sch.score ∧
      d.overview = sch.overview ∧ d.status = MovieStatusEnum.toStr st ∧
      d.budget = sch.budget ∧ d.revenue = sch.revenue ∧
      d.country.code = sch.country := by
  obtain ⟨hmv, hnx⟩ := create_movies_chain sch db
  obtain ⟨-, -, cg, -, ca, -, cl, -⟩ := getOrCreateCountry_frame sch.country db
  obtain ⟨-, -, gc, -, ga, -, gl, -⟩ :=
    getOrCreateGenres_frame sch.genres (getOrCreateCountry sch.country db).2
  obtain ⟨-, -, ac, -, ag, -, al, -⟩ :=
    getOrCreateActors_frame sch.actors
      (getOrCreateGenres sch.genres (getOrCreateCountry sch.country db).2).2
  obtain ⟨-, -, lc, -, lg, -, la, -⟩ :=
    getOrCreateLanguages_frame sch.languages
      (getOrCreateActors sch.actors
        (getOrCreateGenres sch.genres (getOrCreateCountry sch.country db).2).2).2
  obtain ⟨hcmem, hccode⟩ := getOrCreateCountry_found sch.country db
  have hcnodup : ((getOrCreateCountry sch.country db).2.countries.map CountryModel.id).Nodup :=
    getOrCreateCountry_ids sch.country db hWF.2.2.1 hWF.2.2.2.1
  obtain ⟨hgids, -⟩ :=
    getOrCreateGenres_resolvable sch.genres (getOrCreateCountry sch.country db).2
  obtain ⟨haids, -⟩ :=
    getOrCreateActors_resolvable sch.actors
      (getOrCreateGenres sch.genres (getOrCreateCountry sch.country db).2).2
  obtain ⟨hlids, -⟩ :=
    getOrCreateLanguages_resolvable sch.languages
      (getOrCreateActors sch.actors
        (getOrCreateGenres sch.genres (getOrCreateCountry sch.country db).2).2).2
  simp only [create_movie, hval, hdup, hst]
  set cdb := getOrCreateCountry sch.country db with hcdb
  set gdb := getOrCreateGenres sch.genres cdb.2 with hgdb
  set adb := getOrCreateActors sch.actors gdb.2 with hadb
  set ldb := getOrCreateLanguages sch.languages adb.2 with hldb
  set nm : MovieModel :=
    { id := ldb.2.nextMovieId, name := some sch.name, date := some sch.date,
      score := some sch.score, overview := some sch.overview, status := some st,
      budget := some sch.budget, revenue := some sch.revenue, countryId := cdb.1.id,
      genreIds := gdb.1, actorIds := adb.1, languageIds := ldb.1 } with hnm
  have hfind : (ldb.2.movies ++ [nm]).find? (fun m => m.id == ldb.2.nextMovieId) = some nm := by
    apply find_new_movie
    · intro m hm
      rw [hmv] at hm
      rw [hnx]
      exact hWF.1 m hm
    · rw [hnm]
  have hc5 : ldb.2.countries = cdb.2.countries := by rw [lc, ac, gc]
  have hg5 : ldb.2.genres = gdb.2.genres := by rw [lg, ag]
  have ha5 : ldb.2.actors = adb.2.actors := by rw [la]
  have hcfind : cdb.2.countries.find? (fun x => x.id == cdb.1.id) = some cdb.1 :=
    find_by_id_of_mem CountryModel.id cdb.2.countries cdb.1 hcmem hcnodup
  obtain ⟨gs, hgs⟩ := mapM_option_exists (fun i => gdb.2.genres.find? (fun g => g.id == i)) gdb.1
    (by
      intro i hi
      obtain ⟨g, hgmem, hgid⟩ := hgids i hi
      have hsome : (gdb.2.genres.find? (fun g => g.id == i)).isSome = true :=
        List.find?_isSome.mpr ⟨g, hgmem, by simp [hgid]⟩
      exact Option.isSome_iff_exists.mp hsome)
  obtain ⟨as2, has2⟩ := mapM_option_exists (fun i => adb.2.actors.find? (fun a => a.id == i)) adb.1
    (by
      intro i hi
      obtain ⟨a, hamem, haid⟩ := haids i hi
      have hsome : (adb.2.actors.find? (fun a => a.id == i)).isSome = true :=
        List.find?_isSome.mpr ⟨a, hamem, by simp [haid]⟩
      exact Option.isSome_iff_exists.mp hsome)
  obtain ⟨ls, hls⟩ := mapM_option_exists (fun i => ldb.2.languages.find? (fun l => l.id == i)) ldb.1
    (by
      intro i hi
      obtain ⟨l, hlmem, hlid⟩ := hlids i hi
      have hsome : (ldb.2.languages.find? (fun l => l.id == i)).isSome = true :=
        List.find?_isSome.mpr ⟨l, hlmem, by simp [hlid]⟩
      exact Option.isSome_iff_exists.mp hsome)
  set dd : MovieDetail :=
    { id := ldb.2.nextMovieId, name := sch.name, date := sch.date, score := sch.score,
      overview := sch.overview, status := MovieStatusEnum.toStr st, budget := sch.budget,
      revenue := sch.revenue, country := cdb.1, genres := gs, actors := as2,
      languages := ls } with hdd
  refine ⟨dd, { ldb.2 with movies := ldb.2.movies ++ [nm], nextMovieId := ldb.2.nextMovieId + 1 }, ?_, ?_, ?_, ?_, ?_, ?_, ?_, ?_, ?_⟩
  case refine_2 => rw [hdd]
  case refine_3 => rw [hdd]
  case refine_4 => rw [hdd]
  case refine_5 => rw [hdd]
  case refine_6 => rw [hdd]
  case refine_7 => rw [hdd]
  case refine_8 => rw [hdd]
  case refine_9 => rw [hdd]; exact hccode
  unfold detailOf?
  rw [show ({ ldb.2 with movies := ldb.2.movies ++ [nm], nextMovieId := ldb.2.nextMovieId + 1 } : DB).movies = ldb.2.movies ++ [nm] from rfl]
  rw [hfind]
  simp only [Option.some_bind]
  rw [hc5, hcfind]
  simp only [Option.some_bind]
  rw [hg5, hgs]
  simp only [Option.some_bind]
  rw [ha5, has2]
  simp only [Option.some_bind]
  rw [hls]
  simp only [Option.some_bind]

/-- C1: for every raw create payload the schema accepts (which
uppercases the country code), with score in [0, 100], budget and
revenue non-negative, date at most today + 365, and a (name, date)
pair not already stored, the POST pipeline succeeds and the returned
detail record's scalar fields equal the corresponding input fields,
the country code uppercased. -/
theorem create_ok_detail_matches_input (today : Int) (raw : MovieCreateInput)
    (sch : MovieCreateSchema) (db : DB) (hWF : db.WF)
    (hmk : mkMovieCreateSchema raw = some sch)
    (hs1 : 0 ≤ raw.score) (hs2 : raw.score ≤ 100)
    (hb : 0 ≤ raw.budget) (hr : 0 ≤ raw.revenue)
    (hdate : raw.date ≤ today + 365)
    (hnodup : ∀ m ∈ db.movies, ¬ (m.name = some raw.name ∧ m.date = some raw.date)) :
    ∃ d db2, post_movie_route today raw db = .ok (some d, db2) ∧
      d.name = raw.name ∧ d.date = raw.date ∧ d.score = raw.score ∧
      d.overview = raw.overview ∧ d.status = raw.status ∧
      d.budget = raw.budget ∧ d.revenue = raw.revenue ∧
      d.country.code = pyUpper raw.country := by
  obtain ⟨f1, f2, f3, f4, f5, f6, f7, f8, -, -, -, hmem, hlen, halpha⟩ :=
    mk_success_fields raw sch hmk
  obtain ⟨st, hstq, hstr⟩ := status_roundtrip raw.status hmem
  have hval : validate_movie_fields_for_create today sch = none := by
    apply validate_create_none
    · rw [f2]; exact hdate
    · rw [f3]; exact hs1
    · rw [f3]; exact hs2
    · rw [f6]; exact hb
    · rw [f7]; exact hr
    · rw [f5]; exact hmem
    · rw [f8, length_pyUpper]; exact hlen
    · rw [f8]; exact pyIsAlpha_pyUpper raw.country halpha
  have hdupf : db.movies.find?
      (fun m => m.name == some sch.name && m.date == some sch.date) = none := by
    rw [List.find?_eq_none]
    intro x hx
    rw [f1, f2]
    simp only [Bool.and_eq_true, beq_iff_eq, not_and]
    intro hcon1 hcon2
    exact hnodup x hx ⟨hcon1, hcon2⟩
  have hst2 : MovieStatusEnum.ofString? sch.status = some st := by rw [f5]; exact hstq
  obtain ⟨d, db2, hok, g1, g2, g3, g4, g5, g6, g7, g8⟩ :=
    create_movie_ok_detail today sch db hWF hval hdupf st hst2
  refine ⟨d, db2, ?_, ?_, ?_, ?_, ?_, ?_, ?_, ?_, ?_⟩
  · unfold post_movie_route
    rw [hmk]
    exact hok
  · rw [g1, f1]
  · rw [g2, f2]
  · rw [g3, f3]
  · rw [g4, f4]
  · rw [g5, hstr]
  · rw [g6, f6]
  · rw [g7, f7]
  · rw [g8, f8]

/-- C1 witness: the concrete payload `rawA` (country "usa") on the
empty store round-trips, with country code "USA". -/
theorem create_ok_detail_matches_input_witness :
    ∃ d db2, post_movie_route 0 rawA {} = .ok (some d, db2) ∧
      d.name = rawA.name ∧ d.date = rawA.date ∧ d.score = rawA.score ∧
      d.overview = rawA.overview ∧ d.status = rawA.status ∧
      d.budget = rawA.budget ∧ d.revenue = rawA.revenue ∧
      d.country.code = pyUpper rawA.country :=
  create_ok_detail_matches_input 0 rawA schA {} (by decide) (by decide)
    (by decide) (by decide) (by decide) (by decide) (by decide) (by decide)
